import Mathlib

/-!
# Host lifecycle state machine of the bare-metal operator

A shallow embedding of `controllers/metal3.io/host_state_machine.go`.

* The Go pointer `hsm.Host` (shared with `info.host`) becomes a value that is
  threaded through every function; a function that mutates the host returns the
  new host.
* The `Reconciler.actionXxx` methods, the methods of `BareMetalHost`
  (`HasBMCDetails`, `NeedsHardwareInspection`, ...) and `metav1.Now` live in
  other files; they are parameters of the development.
* Log lines are not modelled.  Events, post-save callbacks, the two counters
  that are incremented directly and the list of provisioner actions invoked
  are recorded so that frame and effect properties can be stated.
-/

namespace Metal3

/-! ## Data model -/

/-- A `metav1.Time`, as a number of ticks; `0` is the zero time. -/
abbrev Time := Nat

/-- The method `Time.IsZero` on a value. -/
def timeIsZero (t : Time) : Bool := t == 0

/-- The method `(*Time).IsZero` on a pointer: a nil pointer is zero. -/
def ptrIsZero : Option Time → Bool
  | none => true
  | some t => timeIsZero t

/-- The type `ProvisioningState` (a Go string type).  The twelve named
constants are constructors; every other string value is `StateOther`. -/
inductive ProvisioningState where
  | StateNone
  | StateUnmanaged
  | StateRegistering
  | StateInspecting
  | StateMatchProfile
  | StateAvailable
  | StateReady
  | StateProvisioning
  | StateProvisioned
  | StateExternallyProvisioned
  | StateDeprovisioning
  | StateDeleting
  | StateOther (name : String)
  deriving DecidableEq, Repr

open ProvisioningState

/-- The type `ErrorType`: the error classes of the specification, or empty. -/
inductive ErrorType where
  | NoError
  | RegistrationError
  | InspectionError
  | ProvisioningError
  | PowerManagementError
  deriving DecidableEq, Repr

/-- The type `OperationalStatus`. -/
inductive OperationalStatus where
  | OperationalStatusEmpty
  | OperationalStatusOK
  | OperationalStatusDiscovered
  | OperationalStatusError
  deriving DecidableEq, Repr

/-- The type `BootMode`. -/
inductive BootMode where
  | Unset
  | UEFI
  | Legacy
  deriving DecidableEq, Repr

/-- Modelled from the spec: the `actionResult` variants of `action_result.go`
(Complete, Continue, Delayed(duration), Failed(kind), Error(message)).  An
action never returns a nil result, so the type has no nil value. -/
inductive actionResult where
  | actionComplete
  | actionContinue
  | actionDelayed (after : Nat)
  | actionFailed (ErrorType : ErrorType)
  | actionError (msg : String)
  deriving DecidableEq, Repr

open actionResult

/-- The test `_, complete := result.(actionComplete)`. -/
def actionResult.isComplete : actionResult → Bool
  | actionComplete => true
  | _ => false

/-- The image of a host, reduced to its URL. -/
structure Image where
  URL : String
  deriving DecidableEq, Repr

/-- The BMC address and credentials reference of the host spec. -/
structure BMCDetails where
  Address : String
  CredentialsName : String
  deriving DecidableEq, Repr

/-- The type `BareMetalHostSpec`, with the fields the state machine reads. -/
structure BareMetalHostSpec where
  BMC : BMCDetails
  Image : Option Image
  ExternallyProvisioned : Bool
  deriving DecidableEq, Repr

/-- The type `OperationMetric`: one begin/end interval. -/
structure OperationMetric where
  Start : Time
  End : Time
  deriving DecidableEq, Repr

/-- The type `ProvisionStatus`. -/
structure ProvisionStatus where
  State : ProvisioningState
  ID : String
  Image : Image
  BootMode : BootMode
  deriving DecidableEq, Repr

/-- The current BMC credentials secret, reduced to its fingerprint. -/
structure Secret where
  fingerprint : String
  deriving DecidableEq, Repr

/-- The type `CredentialsVersion`: the fingerprint of a secret, or nothing when
no credentials have been recorded. -/
structure CredentialsVersion where
  fingerprint : Option String
  deriving DecidableEq, Repr

/-- Modelled from the spec: `CredentialsVersion.Match`, which is defined in the
API package; the recorded fingerprint equals the fingerprint of the secret. -/
def CredentialsVersion.Match (cv : CredentialsVersion) (secret : Secret) : Bool :=
  cv.fingerprint == some secret.fingerprint

/-- The type `BareMetalHostStatus`.  `OperationHistory` is keyed by state. -/
structure BareMetalHostStatus where
  OperationalStatus : OperationalStatus
  ErrorType : ErrorType
  Provisioning : ProvisionStatus
  GoodCredentials : CredentialsVersion
  TriedCredentials : CredentialsVersion
  OperationHistory : List (ProvisioningState × OperationMetric)
  deriving DecidableEq, Repr

/-- The type `BareMetalHost`. -/
structure BareMetalHost where
  DeletionTimestamp : Option Time
  Spec : BareMetalHostSpec
  Status : BareMetalHostStatus
  deriving DecidableEq, Repr

/-- Modelled from the spec: `BareMetalHost.OperationMetricForState`, defined in
the API package; the interval recorded for a state, nil when the state has
none. -/
def OperationMetricForState (host : BareMetalHost) (state : ProvisioningState) :
    Option OperationMetric :=
  (host.Status.OperationHistory.find? (fun e => e.1 == state)).map Prod.snd

/-- Overwrite the first interval keyed by `state`. -/
def replaceMetric (state : ProvisioningState) (m : OperationMetric) :
    List (ProvisioningState × OperationMetric) → List (ProvisioningState × OperationMetric)
  | [] => []
  | e :: rest =>
    if e.1 == state then (state, m) :: rest else e :: replaceMetric state m rest

/-- A write through the pointer returned by `OperationMetricForState`. -/
def setOperationMetric (host : BareMetalHost) (state : ProvisioningState)
    (m : OperationMetric) : BareMetalHost :=
  { host with Status := { host.Status with
      OperationHistory := replaceMetric state m host.Status.OperationHistory } }

/-- Modelled from the spec: `BareMetalHost.SetOperationalStatus`, defined in
the API package. -/
def SetOperationalStatus (host : BareMetalHost) (status : OperationalStatus) : BareMetalHost :=
  { host with Status := { host.Status with OperationalStatus := status } }

/-- Modelled from the spec: `BareMetalHost.ClearError`, defined in the API
package; it clears the error field. -/
def ClearError (host : BareMetalHost) : BareMetalHost :=
  { host with Status := { host.Status with ErrorType := ErrorType.NoError } }

/-- An event published with `info.publishEvent`. -/
structure Event where
  reason : String
  message : String
  deriving DecidableEq, Repr

/-- A post-save callback.  The three closures built by the state machine are
told apart from callbacks queued by a provisioner action. -/
inductive Callback where
  | observeStateTime (state : ProvisioningState)
  | stateChange (old new : ProvisioningState)
  | deleteWithoutDeprov
  | fromAction (label : String)
  deriving DecidableEq, Repr

/-- The provisioner operations behind the actions of the reconciler. -/
inductive ProvisionerAction where
  | Register
  | Unmanaged
  | Inspect
  | MatchProfile
  | ManageReady
  | ManageSteadyState
  | Provision
  | Deprovision
  | Delete
  deriving DecidableEq, Repr

/-- The type `reconcileInfo`, without the logger and the request; the host it
points to is the host of the state machine. -/
structure reconcileInfo where
  bmcCredsSecret : Secret
  events : List Event
  postSaveCallbacks : List Callback
  deriving DecidableEq, Repr

/-- What one call of a reconciler action does: its result, the host as the
action leaves it, and the events and callbacks it adds. -/
structure ActionEffect where
  result : actionResult
  host : BareMetalHost
  events : List Event
  callbacks : List String

/-- Modelled from the spec: the `actionXxx` methods of `BareMetalHostReconciler`
(the provisioner handle is part of the function).  The bodies are not in this
file; every behaviour is allowed. -/
structure BareMetalHostReconciler where
  actionRegistering : BareMetalHost → reconcileInfo → ActionEffect
  actionUnmanaged : BareMetalHost → reconcileInfo → ActionEffect
  actionInspecting : BareMetalHost → reconcileInfo → ActionEffect
  actionMatchProfile : BareMetalHost → reconcileInfo → ActionEffect
  actionManageReady : BareMetalHost → reconcileInfo → ActionEffect
  actionManageSteadyState : BareMetalHost → reconcileInfo → ActionEffect
  actionProvisioning : BareMetalHost → reconcileInfo → ActionEffect
  actionDeprovisioning : BareMetalHost → reconcileInfo → ActionEffect
  actionDeleting : BareMetalHost → reconcileInfo → ActionEffect

/-- The methods of `BareMetalHost` that the state machine only reads, and the
clock: `Now k` is what the call number `k` of `metav1.Now` returns. -/
structure Externals where
  HasBMCDetails : BareMetalHost → Bool
  HasError : BareMetalHost → Bool
  NeedsHardwareInspection : BareMetalHost → Bool
  NeedsHardwareProfile : BareMetalHost → Bool
  BootMode : BareMetalHost → BootMode
  Now : Nat → Time

/-- The type `hostStateMachine`. -/
structure hostStateMachine where
  Host : BareMetalHost
  NextState : ProvisioningState
  Reconciler : BareMetalHostReconciler

/-- Process-wide observations: the provisioner actions invoked so far, the
number of clock readings, and the counters incremented directly. -/
structure World where
  calls : List ProvisionerAction
  clockReads : Nat
  hostRegistrationRequired : Nat
  hostUnmanaged : Nat
  deriving DecidableEq, Repr

/-- Everything one reconcile tick may read or write. -/
structure Tick where
  hsm : hostStateMachine
  info : reconcileInfo
  world : World

/-- The function `newHostStateMachine`. -/
def newHostStateMachine (host : BareMetalHost) (reconciler : BareMetalHostReconciler) :
    hostStateMachine :=
  { Host := host, NextState := host.Status.Provisioning.State, Reconciler := reconciler }

/-! ## Operations -/

/-- The string value of a state; the named constants are declared in the API
package. -/
def ProvisioningState.name : ProvisioningState → String
  | StateNone => ""
  | StateUnmanaged => "unmanaged"
  | StateRegistering => "registering"
  | StateInspecting => "inspecting"
  | StateMatchProfile => "match profile"
  | StateAvailable => "available"
  | StateReady => "ready"
  | StateProvisioning => "provisioning"
  | StateProvisioned => "provisioned"
  | StateExternallyProvisioned => "externally provisioned"
  | StateDeprovisioning => "deprovisioning"
  | StateDeleting => "deleting"
  | StateOther name => name

/-- One call of `metav1.Now`. -/
def readClock (x : Externals) (w : World) : Time × World :=
  (x.Now w.clockReads, { w with clockReads := w.clockReads + 1 })

/-- The function `recordStateBegin`. -/
def recordStateBegin (host : BareMetalHost) (state : ProvisioningState) (time : Time) :
    BareMetalHost :=
  match OperationMetricForState host state with
  | some nextMetric =>
    if timeIsZero nextMetric.Start || !timeIsZero nextMetric.End then
      setOperationMetric host state { Start := time, End := 0 }
    else host
  | none => host

/-- The function `recordStateEnd`. -/
def recordStateEnd (info : reconcileInfo) (host : BareMetalHost) (state : ProvisioningState)
    (time : Time) : reconcileInfo × BareMetalHost :=
  match OperationMetricForState host state with
  | some prevMetric =>
    if !timeIsZero prevMetric.Start then
      ({ info with postSaveCallbacks :=
            info.postSaveCallbacks ++ [Callback.observeStateTime state] },
        setOperationMetric host state { prevMetric with End := time })
    else (info, host)
  | none => (info, host)

/-- The function `updateBootModeStatus`. -/
def updateBootModeStatus (x : Externals) (host : BareMetalHost) : Bool × BareMetalHost :=
  let bootMode := x.BootMode host
  if bootMode = host.Status.Provisioning.BootMode then (false, host)
  else
    (true, { host with Status := { host.Status with
      Provisioning := { host.Status.Provisioning with BootMode := bootMode } } })

/-- The assignment `host.Status.Provisioning.State = state`. -/
def setProvisioningState (host : BareMetalHost) (state : ProvisioningState) : BareMetalHost :=
  { host with Status := { host.Status with
      Provisioning := { host.Status.Provisioning with State := state } } }

/-- The method `updateHostStateFrom`. -/
def updateHostStateFrom (x : Externals) (initialState : ProvisioningState) (t : Tick) : Tick :=
  if t.hsm.NextState ≠ initialState then
    let now := readClock x t.world
    let ended := recordStateEnd t.info t.hsm.Host initialState now.1
    let begun := recordStateBegin ended.2 t.hsm.NextState now.1
    let info := { ended.1 with postSaveCallbacks :=
      ended.1.postSaveCallbacks ++ [Callback.stateChange initialState t.hsm.NextState] }
    let host := setProvisioningState begun t.hsm.NextState
    let host :=
      match t.hsm.NextState with
      | StateInspecting => (updateBootModeStatus x host).2
      | StateProvisioning => (updateBootModeStatus x host).2
      | _ => host
    { hsm := { t.hsm with Host := host }, info := info, world := now.2 }
  else t

/-- The method `checkInitiateDelete`. -/
def checkInitiateDelete (hsm : hostStateMachine) : Bool × hostStateMachine :=
  if ptrIsZero hsm.Host.DeletionTimestamp then (false, hsm)
  else
    match hsm.NextState with
    | StateProvisioning => (true, { hsm with NextState := StateDeprovisioning })
    | StateProvisioned => (true, { hsm with NextState := StateDeprovisioning })
    | StateDeprovisioning => (false, hsm)
    | StateDeleting => (false, hsm)
    | _ => (true, { hsm with NextState := StateDeleting })

/-- A call `hsm.Reconciler.actionXxx(hsm.Provisioner, info)`: the action runs on
the host of the machine, and the call is recorded. -/
def runAction (which : ProvisionerAction)
    (action : BareMetalHost → reconcileInfo → ActionEffect) (t : Tick) : actionResult × Tick :=
  let eff := action t.hsm.Host t.info
  (eff.result,
    { hsm := { t.hsm with Host := eff.host }
      info := { t.info with
        events := t.info.events ++ eff.events
        postSaveCallbacks := t.info.postSaveCallbacks ++ eff.callbacks.map Callback.fromAction }
      world := { t.world with calls := t.world.calls ++ [which] } })

/-- The method `ensureRegistered`; `none` is the empty (nil) result. -/
def ensureRegistered (x : Externals) (t : Tick) : Option actionResult × Tick :=
  if t.hsm.NextState = StateNone ∨ t.hsm.NextState = StateUnmanaged then (none, t)
  else if !ptrIsZero t.hsm.Host.DeletionTimestamp then (none, t)
  else if t.hsm.Host.Status.GoodCredentials.Match t.info.bmcCredsSecret then (none, t)
  else
    let now := readClock x t.world
    let t1 : Tick :=
      { t with
        hsm := { t.hsm with Host := recordStateBegin t.hsm.Host StateRegistering now.1 }
        world := now.2 }
    if t1.hsm.Host.Status.ErrorType = ErrorType.RegistrationError ∧
        t1.hsm.Host.Status.TriedCredentials.Match t1.info.bmcCredsSecret = true then
      (some (actionFailed ErrorType.RegistrationError), t1)
    else
      let r := runAction ProvisionerAction.Register t1.hsm.Reconciler.actionRegistering t1
      if r.1.isComplete = true ∧
          r.2.hsm.Host.Status.Provisioning.State ≠ StateRegistering then
        let now2 := readClock x r.2.world
        let ended := recordStateEnd r.2.info r.2.hsm.Host StateRegistering now2.1
        (some r.1, { hsm := { r.2.hsm with Host := ended.2 }, info := ended.1, world := now2.2 })
      else (some r.1, r.2)

/-- The method `handleNone`. -/
def handleNone (x : Externals) (t : Tick) : actionResult × Tick :=
  if x.HasBMCDetails t.hsm.Host then
    (actionComplete, { t with hsm := { t.hsm with NextState := StateRegistering } })
  else
    (actionComplete,
      { hsm := { t.hsm with
          Host := SetOperationalStatus t.hsm.Host OperationalStatus.OperationalStatusDiscovered
          NextState := StateUnmanaged }
        info := { t.info with events :=
          t.info.events ++ [{ reason := "Discovered",
                              message := "Discovered host with no BMC details" }] }
        world := { t.world with hostUnmanaged := t.world.hostUnmanaged + 1 } })

/-- The method `handleUnmanaged`. -/
def handleUnmanaged (_x : Externals) (t : Tick) : actionResult × Tick :=
  let r := runAction ProvisionerAction.Unmanaged t.hsm.Reconciler.actionUnmanaged t
  if r.1.isComplete then (r.1, { r.2 with hsm := { r.2.hsm with NextState := StateRegistering } })
  else r

/-- The method `handleRegistering`. -/
def handleRegistering (_x : Externals) (t : Tick) : actionResult × Tick :=
  let host := ClearError t.hsm.Host
  if host.Spec.ExternallyProvisioned then
    (actionComplete,
      { t with hsm := { t.hsm with Host := host, NextState := StateExternallyProvisioned } })
  else
    (actionComplete, { t with hsm := { t.hsm with Host := host, NextState := StateInspecting } })

/-- The method `handleInspecting`. -/
def handleInspecting (_x : Externals) (t : Tick) : actionResult × Tick :=
  let r := runAction ProvisionerAction.Inspect t.hsm.Reconciler.actionInspecting t
  if r.1.isComplete then (r.1, { r.2 with hsm := { r.2.hsm with NextState := StateMatchProfile } })
  else r

/-- The method `handleMatchProfile`. -/
def handleMatchProfile (_x : Externals) (t : Tick) : actionResult × Tick :=
  let r := runAction ProvisionerAction.MatchProfile t.hsm.Reconciler.actionMatchProfile t
  if r.1.isComplete then (r.1, { r.2 with hsm := { r.2.hsm with NextState := StateReady } })
  else r

/-- The method `handleExternallyProvisioned`. -/
def handleExternallyProvisioned (x : Externals) (t : Tick) : actionResult × Tick :=
  if t.hsm.Host.Spec.ExternallyProvisioned then
    runAction ProvisionerAction.ManageSteadyState t.hsm.Reconciler.actionManageSteadyState t
  else if x.NeedsHardwareInspection t.hsm.Host then
    (actionComplete, { t with hsm := { t.hsm with NextState := StateInspecting } })
  else if x.NeedsHardwareProfile t.hsm.Host then
    (actionComplete, { t with hsm := { t.hsm with NextState := StateMatchProfile } })
  else
    (actionComplete, { t with hsm := { t.hsm with NextState := StateReady } })

/-- The method `handleReady`. -/
def handleReady (_x : Externals) (t : Tick) : actionResult × Tick :=
  if t.hsm.Host.Spec.ExternallyProvisioned then
    (actionComplete, { t with hsm := { t.hsm with NextState := StateExternallyProvisioned } })
  else
    let r := runAction ProvisionerAction.ManageReady t.hsm.Reconciler.actionManageReady t
    if r.1.isComplete then
      (r.1, { r.2 with hsm := { r.2.hsm with NextState := StateProvisioning } })
    else r

/-- The method `provisioningCancelled`. -/
def provisioningCancelled (x : Externals) (hsm : hostStateMachine) : Bool :=
  if x.HasError hsm.Host then true
  else
    match hsm.Host.Spec.Image with
    | none => true
    | some image =>
      if image.URL = "" then true
      else if hsm.Host.Status.Provisioning.Image.URL = "" then false
      else if image.URL ≠ hsm.Host.Status.Provisioning.Image.URL then true
      else false

/-- The method `handleProvisioning`. -/
def handleProvisioning (x : Externals) (t : Tick) : actionResult × Tick :=
  if provisioningCancelled x t.hsm then
    (actionComplete, { t with hsm := { t.hsm with NextState := StateDeprovisioning } })
  else
    let r := runAction ProvisionerAction.Provision t.hsm.Reconciler.actionProvisioning t
    if r.1.isComplete then
      (r.1, { r.2 with hsm := { r.2.hsm with NextState := StateProvisioned } })
    else r

/-- The method `handleProvisioned`. -/
def handleProvisioned (x : Externals) (t : Tick) : actionResult × Tick :=
  if provisioningCancelled x t.hsm then
    (actionComplete, { t with hsm := { t.hsm with NextState := StateDeprovisioning } })
  else
    runAction ProvisionerAction.ManageSteadyState t.hsm.Reconciler.actionManageSteadyState t

/-- The method `handleDeprovisioning`. -/
def handleDeprovisioning (_x : Externals) (t : Tick) : actionResult × Tick :=
  let r := runAction ProvisionerAction.Deprovision t.hsm.Reconciler.actionDeprovisioning t
  match r.1 with
  | actionComplete =>
    if !ptrIsZero r.2.hsm.Host.DeletionTimestamp then
      (r.1, { r.2 with hsm := { r.2.hsm with NextState := StateDeleting } })
    else
      (r.1, { r.2 with hsm := { r.2.hsm with NextState := StateReady } })
  | actionFailed _ =>
    if !ptrIsZero r.2.hsm.Host.DeletionTimestamp then
      (actionComplete,
        { r.2 with
          hsm := { r.2.hsm with NextState := StateDeleting }
          info := { r.2.info with postSaveCallbacks :=
            r.2.info.postSaveCallbacks ++ [Callback.deleteWithoutDeprov] } })
    else r
  | _ => r

/-- The method `handleDeleting`. -/
def handleDeleting (_x : Externals) (t : Tick) : actionResult × Tick :=
  runAction ProvisionerAction.Delete t.hsm.Reconciler.actionDeleting t

/-- The type `stateHandler`. -/
abbrev stateHandler := Externals → Tick → actionResult × Tick

/-- The method `handlers`: the handler registered for a state, if any. -/
def handlers : ProvisioningState → Option stateHandler
  | StateNone => some handleNone
  | StateUnmanaged => some handleUnmanaged
  | StateRegistering => some handleRegistering
  | StateInspecting => some handleInspecting
  | StateExternallyProvisioned => some handleExternallyProvisioned
  | StateMatchProfile => some handleMatchProfile
  | StateAvailable => some handleReady
  | StateReady => some handleReady
  | StateProvisioning => some handleProvisioning
  | StateProvisioned => some handleProvisioned
  | StateDeprovisioning => some handleDeprovisioning
  | StateDeleting => some handleDeleting
  | StateOther _ => none

/-- The body of `ReconcileState`, up to its return statement. -/
def reconcileBody (x : Externals) (initialState : ProvisioningState) (t : Tick) :
    actionResult × Tick :=
  let del := checkInitiateDelete t.hsm
  if del.1 then (actionComplete, { t with hsm := del.2 })
  else
    let reg := ensureRegistered x { t with hsm := del.2 }
    match reg.1 with
    | some registerResult =>
      (registerResult,
        { reg.2 with world := { reg.2.world with
            hostRegistrationRequired := reg.2.world.hostRegistrationRequired + 1 } })
    | none =>
      match handlers initialState with
      | some stateHandler => stateHandler x reg.2
      | none =>
        (actionError ("No handler found for state \"" ++ initialState.name ++ "\""), reg.2)

/-- The method `ReconcileState`: the body, then the deferred
`updateHostStateFrom`. -/
def ReconcileState (x : Externals) (t : Tick) : actionResult × Tick :=
  let initialState := t.hsm.Host.Status.Provisioning.State
  let r := reconcileBody x initialState t
  (r.1, updateHostStateFrom x initialState r.2)

/-- One reconcile of a host by the driver: a fresh machine for the host, then
`ReconcileState` with the reconcile context and the world as they stand. -/
def reconcile (x : Externals) (reconciler : BareMetalHostReconciler) (host : BareMetalHost)
    (info : reconcileInfo) (world : World) : actionResult × Tick :=
  ReconcileState x { hsm := newHostStateMachine host reconciler, info := info, world := world }

/-- The state of the host after a tick. -/
def stateAfter (r : actionResult × Tick) : ProvisioningState :=
  r.2.hsm.Host.Status.Provisioning.State

/-! ## Assumptions on the collaborators -/

/-- An action writes neither the provisioning state nor the deletion timestamp
of the host. -/
def KeepsLifecycle (action : BareMetalHost → reconcileInfo → ActionEffect) : Prop :=
  ∀ host info,
    (action host info).host.Status.Provisioning.State = host.Status.Provisioning.State ∧
    (action host info).host.DeletionTimestamp = host.DeletionTimestamp

/-- No action of the reconciler writes the provisioning state or the deletion
timestamp: these belong to the state machine and to the API server. -/
structure BareMetalHostReconciler.KeepsLifecycle (r : BareMetalHostReconciler) : Prop where
  registering : Metal3.KeepsLifecycle r.actionRegistering
  unmanaged : Metal3.KeepsLifecycle r.actionUnmanaged
  inspecting : Metal3.KeepsLifecycle r.actionInspecting
  matchProfile : Metal3.KeepsLifecycle r.actionMatchProfile
  manageReady : Metal3.KeepsLifecycle r.actionManageReady
  manageSteadyState : Metal3.KeepsLifecycle r.actionManageSteadyState
  provisioning : Metal3.KeepsLifecycle r.actionProvisioning
  deprovisioning : Metal3.KeepsLifecycle r.actionDeprovisioning
  deleting : Metal3.KeepsLifecycle r.actionDeleting

/-! ## Sample collaborators, used to evaluate the machine -/

/-- An action that returns `result` and changes nothing. -/
def constAction (result : actionResult) : BareMetalHost → reconcileInfo → ActionEffect :=
  fun host _ => { result := result, host := host, events := [], callbacks := [] }

/-- A reconciler all of whose actions return `result` and change nothing. -/
def constReconciler (result : actionResult) : BareMetalHostReconciler :=
  { actionRegistering := constAction result
    actionUnmanaged := constAction result
    actionInspecting := constAction result
    actionMatchProfile := constAction result
    actionManageReady := constAction result
    actionManageSteadyState := constAction result
    actionProvisioning := constAction result
    actionDeprovisioning := constAction result
    actionDeleting := constAction result }

/-- Host methods read off the modelled fields, and a clock that always shows
time 7. -/
def sampleExternals : Externals :=
  { HasBMCDetails := fun h => h.Spec.BMC.Address != "" || h.Spec.BMC.CredentialsName != ""
    HasError := fun h => h.Status.ErrorType != ErrorType.NoError
    NeedsHardwareInspection := fun _ => false
    NeedsHardwareProfile := fun _ => false
    BootMode := fun _ => BootMode.UEFI
    Now := fun _ => 7 }

/-- A host in the given state, with no deletion timestamp, no image, no error,
no recorded credentials and an empty operation history. -/
def sampleHost (state : ProvisioningState) : BareMetalHost :=
  { DeletionTimestamp := none
    Spec := { BMC := { Address := "ipmi://10.0.0.1", CredentialsName := "bmc-secret" }
              Image := none
              ExternallyProvisioned := false }
    Status :=
      { OperationalStatus := OperationalStatus.OperationalStatusOK
        ErrorType := ErrorType.NoError
        Provisioning := { State := state, ID := "", Image := { URL := "" },
                          BootMode := BootMode.Unset }
        GoodCredentials := { fingerprint := none }
        TriedCredentials := { fingerprint := none }
        OperationHistory :=
          [ (StateRegistering, { Start := 0, End := 0 }),
            (StateInspecting, { Start := 0, End := 0 }),
            (StateProvisioning, { Start := 0, End := 0 }),
            (StateDeprovisioning, { Start := 0, End := 0 }) ] } }

/-- A reconcile context with the given secret fingerprint and empty queues. -/
def sampleInfo (fingerprint : String) : reconcileInfo :=
  { bmcCredsSecret := { fingerprint := fingerprint }, events := [], postSaveCallbacks := [] }

/-- A world in which nothing has happened yet. -/
def World.fresh : World :=
  { calls := [], clockReads := 0, hostRegistrationRequired := 0, hostUnmanaged := 0 }

/-- The host `sampleHost state` once its deletion has been requested. -/
def deletedHost (state : ProvisioningState) : BareMetalHost :=
  { sampleHost state with DeletionTimestamp := some 5 }

/-- The second tick sees the same state, deletion timestamp and reconciler as
the first. -/
def SameLifecycle (t t' : Tick) : Prop :=
  t'.hsm.Host.Status.Provisioning.State = t.hsm.Host.Status.Provisioning.State ∧
  t'.hsm.Host.DeletionTimestamp = t.hsm.Host.DeletionTimestamp ∧
  t'.hsm.Reconciler = t.hsm.Reconciler

/-- The enumerated set of provisioning states of the specification. -/
def enumerated : ProvisioningState → Bool
  | StateOther _ => false
  | _ => true

/-- The transition table of the specification, as the pairs (before, after)
that a state handler may produce. -/
def tableEntry : ProvisioningState → ProvisioningState → Bool
  | StateNone, StateRegistering => true
  | StateNone, StateUnmanaged => true
  | StateUnmanaged, StateRegistering => true
  | StateRegistering, StateExternallyProvisioned => true
  | StateRegistering, StateInspecting => true
  | StateInspecting, StateMatchProfile => true
  | StateMatchProfile, StateReady => true
  | StateExternallyProvisioned, StateInspecting => true
  | StateExternallyProvisioned, StateMatchProfile => true
  | StateExternallyProvisioned, StateReady => true
  | StateReady, StateExternallyProvisioned => true
  | StateReady, StateProvisioning => true
  | StateAvailable, StateExternallyProvisioned => true
  | StateAvailable, StateProvisioning => true
  | StateProvisioning, StateProvisioned => true
  | StateProvisioning, StateDeprovisioning => true
  | StateProvisioned, StateDeprovisioning => true
  | StateDeprovisioning, StateDeleting => true
  | StateDeprovisioning, StateReady => true
  | _, _ => false

/-- The delete-initiation entries of the specification: Provisioning and
Provisioned go to Deprovisioning, every state other than Provisioning,
Provisioned, Deprovisioning and Deleting goes to Deleting. -/
def deleteEntry : ProvisioningState → ProvisioningState → Bool
  | StateProvisioning, next => next == StateDeprovisioning
  | StateProvisioned, next => next == StateDeprovisioning
  | StateDeprovisioning, _ => false
  | StateDeleting, _ => false
  | _, next => next == StateDeleting

/-- The moves of `NextState` within one tick, told apart by whether a deletion
has been requested (`noDelete` is `DeletionTimestamp.IsZero()`): without one,
the entries of the transition table except Deprovisioning → Deleting; with one,
the delete-initiation entries and Deprovisioning → Deleting. -/
def mayMove (noDelete : Bool) (s next : ProvisioningState) : Bool :=
  if noDelete then
    tableEntry s next && !(s == StateDeprovisioning && next == StateDeleting)
  else
    deleteEntry s next || (s == StateDeprovisioning && next == StateDeleting)

/-- A host in Provisioning, with good credentials `A`, asked to run the image at
`specURL` while `statusURL` is recorded as provisioned. -/
def provisioningHost (specURL statusURL : String) : BareMetalHost :=
  { sampleHost StateProvisioning with
    Spec := { (sampleHost StateProvisioning).Spec with Image := some { URL := specURL } }
    Status := { (sampleHost StateProvisioning).Status with
      GoodCredentials := { fingerprint := some "A" }
      Provisioning := { (sampleHost StateProvisioning).Status.Provisioning with
        Image := { URL := statusURL } } } }

/-- A host in the given state whose last registration failed with the
credentials of fingerprint `tried`; no credentials are known to be good. -/
def failedRegistrationHost (state : ProvisioningState) (tried : String) : BareMetalHost :=
  { sampleHost state with
    Status := { (sampleHost state).Status with
      OperationalStatus := OperationalStatus.OperationalStatusError
      ErrorType := ErrorType.RegistrationError
      TriedCredentials := { fingerprint := some tried } } }

/-- The tick right after `metav1.Now` has been read and the Registering
interval has been opened, as `ensureRegistered` leaves it before it looks at
the error type. -/
def registrationBegun (x : Externals) (t : Tick) : Tick :=
  { t with
    hsm := { t.hsm with
      Host := recordStateBegin t.hsm.Host StateRegistering (x.Now t.world.clockReads) }
    world := { t.world with clockReads := t.world.clockReads + 1 } }

/-- The skip conditions of `ensureRegistered`. -/
def registrationSkipped (t : Tick) : Prop :=
  (t.hsm.NextState = StateNone ∨ t.hsm.NextState = StateUnmanaged) ∨
  ptrIsZero t.hsm.Host.DeletionTimestamp = false ∨
  t.hsm.Host.Status.GoodCredentials.Match t.info.bmcCredsSecret = true

/-- A host in Deprovisioning whose deletion has been requested and whose last
registration failed with the credentials of fingerprint `tried`. -/
def retiringHost (tried : String) : BareMetalHost :=
  { failedRegistrationHost StateDeprovisioning tried with DeletionTimestamp := some 5 }

/-- A host in Inspecting, with good credentials `A`, whose Inspecting interval
was opened at time `start` and is still open. -/
def inspectingSince (start : Time) : BareMetalHost :=
  { sampleHost StateInspecting with
    Status := { (sampleHost StateInspecting).Status with
      GoodCredentials := { fingerprint := some "A" }
      OperationHistory :=
        [ (StateRegistering, { Start := 1, End := 2 }),
          (StateInspecting, { Start := start, End := 0 }),
          (StateProvisioning, { Start := 0, End := 0 }),
          (StateDeprovisioning, { Start := 0, End := 0 }) ] } }

/-- The tick the driver starts for a host: a fresh machine, with the reconcile
context and the world as they stand. -/
def freshTick (host : BareMetalHost) (reconciler : BareMetalHostReconciler)
    (info : reconcileInfo) (world : World) : Tick :=
  { hsm := newHostStateMachine host reconciler, info := info, world := world }

/-- The assignment `host.Status.Provisioning.BootMode = bootMode`. -/
def setBootMode (host : BareMetalHost) (bootMode : BootMode) : BareMetalHost :=
  { host with Status := { host.Status with
      Provisioning := { host.Status.Provisioning with BootMode := bootMode } } }

/-- The host as the transition recorder leaves it before the boot-mode
snapshot: the interval of the old state ended, the interval of the new state
begun, and the new state written. -/
def transitionWritten (x : Externals) (initialState : ProvisioningState) (t : Tick) :
    BareMetalHost :=
  setProvisioningState
    (recordStateBegin
      (recordStateEnd t.info t.hsm.Host initialState (x.Now t.world.clockReads)).2
      t.hsm.NextState (x.Now t.world.clockReads))
    t.hsm.NextState

/-- The callbacks the transition recorder queues: nothing when the state does
not change; otherwise one duration observation for the old state when its
interval was started, then one state-change increment. -/
def recorderCallbacks (s : ProvisioningState) (t : Tick) : List Callback :=
  if t.hsm.NextState ≠ s then
    (match OperationMetricForState t.hsm.Host s with
      | some m => if m.Start ≠ 0 then [Callback.observeStateTime s] else []
      | none => []) ++ [Callback.stateChange s t.hsm.NextState]
  else []

/-- The reconciler action behind each provisioner operation. -/
def BareMetalHostReconciler.actionFor (r : BareMetalHostReconciler) :
    ProvisionerAction → BareMetalHost → reconcileInfo → ActionEffect
  | ProvisionerAction.Register => r.actionRegistering
  | ProvisionerAction.Unmanaged => r.actionUnmanaged
  | ProvisionerAction.Inspect => r.actionInspecting
  | ProvisionerAction.MatchProfile => r.actionMatchProfile
  | ProvisionerAction.ManageReady => r.actionManageReady
  | ProvisionerAction.ManageSteadyState => r.actionManageSteadyState
  | ProvisionerAction.Provision => r.actionProvisioning
  | ProvisionerAction.Deprovision => r.actionDeprovisioning
  | ProvisionerAction.Delete => r.actionDeleting

/-- The action column of the state table of the specification, for the states
Unmanaged to Ready: the provisioner operation a state invokes, if any. -/
def tableAction (host : BareMetalHost) : ProvisioningState → Option ProvisionerAction
  | StateUnmanaged => some ProvisionerAction.Unmanaged
  | StateInspecting => some ProvisionerAction.Inspect
  | StateMatchProfile => some ProvisionerAction.MatchProfile
  | StateExternallyProvisioned =>
    if host.Spec.ExternallyProvisioned then some ProvisionerAction.ManageSteadyState else none
  | StateReady =>
    if host.Spec.ExternallyProvisioned then none else some ProvisionerAction.ManageReady
  | StateAvailable =>
    if host.Spec.ExternallyProvisioned then none else some ProvisionerAction.ManageReady
  | _ => none

/-- The next-state column of the state table of the specification, for the
states Unmanaged to Ready, as a function of the host and of the result of the
action (Complete when the state invokes none). -/
def tableNext (x : Externals) (host : BareMetalHost) (result : actionResult) :
    ProvisioningState → ProvisioningState
  | StateUnmanaged => if result = actionComplete then StateRegistering else StateUnmanaged
  | StateRegistering =>
    if host.Spec.ExternallyProvisioned then StateExternallyProvisioned else StateInspecting
  | StateInspecting => if result = actionComplete then StateMatchProfile else StateInspecting
  | StateMatchProfile => if result = actionComplete then StateReady else StateMatchProfile
  | StateExternallyProvisioned =>
    if host.Spec.ExternallyProvisioned then StateExternallyProvisioned
    else if x.NeedsHardwareInspection host then StateInspecting
    else if x.NeedsHardwareProfile host then StateMatchProfile
    else StateReady
  | StateReady =>
    if host.Spec.ExternallyProvisioned then StateExternallyProvisioned
    else if result = actionComplete then StateProvisioning else StateReady
  | StateAvailable =>
    if host.Spec.ExternallyProvisioned then StateExternallyProvisioned
    else if result = actionComplete then StateProvisioning else StateAvailable
  | s => s

/-- The result column of the state table: the result of the action the state
invokes, Complete when it invokes none. -/
def tableResult (reconciler : BareMetalHostReconciler) (host : BareMetalHost)
    (info : reconcileInfo) (s : ProvisioningState) : actionResult :=
  match tableAction host s with
  | some action => (reconciler.actionFor action host info).result
  | none => actionComplete

/-- The states whose handlers are `handleUnmanaged` to `handleReady`. -/
def earlyState : ProvisioningState → Bool
  | StateUnmanaged => true
  | StateRegistering => true
  | StateInspecting => true
  | StateMatchProfile => true
  | StateExternallyProvisioned => true
  | StateReady => true
  | StateAvailable => true
  | _ => false

/-- A host in the given state that has registered with the credentials `A`. -/
def registeredHost (state : ProvisioningState) : BareMetalHost :=
  { sampleHost state with
    Status := { (sampleHost state).Status with
      GoodCredentials := { fingerprint := some "A" } } }

/-- A host in state None without any BMC details. -/
def discoveredHost : BareMetalHost :=
  { sampleHost StateNone with
    Spec := { (sampleHost StateNone).Spec with
      BMC := { Address := "", CredentialsName := "" } } }

/-- No action of the reconciler writes the operation history of the host: the
intervals are stamped by the state machine alone. -/
def BareMetalHostReconciler.KeepsHistory (r : BareMetalHostReconciler) : Prop :=
  ∀ action host info,
    (r.actionFor action host info).host.Status.OperationHistory =
      host.Status.OperationHistory

/-- A callback that is not one of the two queued by the transition recorder
and by `recordStateEnd`: the delete-without-deprovisioning increment, or a
callback of an action. -/
def Callback.fromHandler : Callback → Bool
  | Callback.deleteWithoutDeprov => true
  | Callback.fromAction _ => true
  | _ => false

/-- The second of two reconciles in a row with no external change: the host is
the one the first reconcile left, the reconciler and the reconcile context
(with its secret) are those of the first, and the world is as the first left
it. -/
def reconcileAgain (x : Externals) (reconciler : BareMetalHostReconciler)
    (host : BareMetalHost) (info : reconcileInfo) (world : World) : actionResult × Tick :=
  reconcile x reconciler (reconcile x reconciler host info world).2.hsm.Host info
    (reconcile x reconciler host info world).2.world

/-- The state-change increments among the callbacks. -/
def Callback.isStateChange : Callback → Bool
  | Callback.stateChange _ _ => true
  | _ => false

/-! ## Frame lemmas -/

theorem recordStateBegin_frame (host : BareMetalHost) (state : ProvisioningState) (time : Time) :
    (recordStateBegin host state time).DeletionTimestamp = host.DeletionTimestamp ∧
    (recordStateBegin host state time).Spec = host.Spec ∧
    (recordStateBegin host state time).Status.Provisioning = host.Status.Provisioning ∧
    (recordStateBegin host state time).Status.ErrorType = host.Status.ErrorType ∧
    (recordStateBegin host state time).Status.OperationalStatus = host.Status.OperationalStatus ∧
    (recordStateBegin host state time).Status.GoodCredentials = host.Status.GoodCredentials ∧
    (recordStateBegin host state time).Status.TriedCredentials = host.Status.TriedCredentials := by
  unfold recordStateBegin
  split
  · split <;> simp [setOperationMetric]
  · simp

theorem recordStateEnd_frame (info : reconcileInfo) (host : BareMetalHost)
    (state : ProvisioningState) (time : Time) :
    (recordStateEnd info host state time).2.DeletionTimestamp = host.DeletionTimestamp ∧
    (recordStateEnd info host state time).2.Spec = host.Spec ∧
    (recordStateEnd info host state time).2.Status.Provisioning = host.Status.Provisioning ∧
    (recordStateEnd info host state time).2.Status.ErrorType = host.Status.ErrorType ∧
    (recordStateEnd info host state time).2.Status.OperationalStatus
      = host.Status.OperationalStatus ∧
    (recordStateEnd info host state time).2.Status.GoodCredentials
      = host.Status.GoodCredentials ∧
    (recordStateEnd info host state time).2.Status.TriedCredentials
      = host.Status.TriedCredentials := by
  unfold recordStateEnd
  split
  · split <;> simp [setOperationMetric]
  · simp

theorem updateBootModeStatus_state (x : Externals) (host : BareMetalHost) :
    (updateBootModeStatus x host).2.Status.Provisioning.State = host.Status.Provisioning.State := by
  unfold updateBootModeStatus
  simp only
  split <;> rfl

/-- The transition recorder leaves the host in `NextState` when that differs
from the initial state, and does not touch the state otherwise. -/
theorem updateHostStateFrom_state (x : Externals) (s : ProvisioningState) (t : Tick) :
    (updateHostStateFrom x s t).hsm.Host.Status.Provisioning.State =
      if t.hsm.NextState ≠ s then t.hsm.NextState else t.hsm.Host.Status.Provisioning.State := by
  unfold updateHostStateFrom
  split
  · simp only
    split <;> simp [updateBootModeStatus_state, setProvisioningState]
  · rfl

/-- The transition recorder invokes no provisioner action. -/
theorem updateHostStateFrom_calls (x : Externals) (s : ProvisioningState) (t : Tick) :
    (updateHostStateFrom x s t).world.calls = t.world.calls := by
  unfold updateHostStateFrom
  split
  · simp [readClock]
  · rfl

theorem SameLifecycle.refl (t : Tick) : SameLifecycle t t := ⟨rfl, rfl, rfl⟩

theorem SameLifecycle.trans {a b c : Tick} (h₁ : SameLifecycle a b) (h₂ : SameLifecycle b c) :
    SameLifecycle a c :=
  ⟨h₂.1.trans h₁.1, h₂.2.1.trans h₁.2.1, h₂.2.2.trans h₁.2.2⟩

/-- Running an action that keeps the lifecycle fields keeps them in the tick,
and never moves `NextState`. -/
theorem runAction_frame (which : ProvisionerAction)
    (action : BareMetalHost → reconcileInfo → ActionEffect) (t : Tick)
    (hk : KeepsLifecycle action) :
    SameLifecycle t (runAction which action t).2 ∧
    (runAction which action t).2.hsm.NextState = t.hsm.NextState :=
  ⟨⟨(hk t.hsm.Host t.info).1, (hk t.hsm.Host t.info).2, rfl⟩, rfl⟩

/-- The registration hook never moves `NextState`, and keeps the lifecycle
fields when `actionRegistering` does. -/
theorem ensureRegistered_frame (x : Externals) (t : Tick)
    (hk : KeepsLifecycle t.hsm.Reconciler.actionRegistering) :
    SameLifecycle t (ensureRegistered x t).2 ∧
    (ensureRegistered x t).2.hsm.NextState = t.hsm.NextState := by
  have hb := recordStateBegin_frame t.hsm.Host StateRegistering (readClock x t.world).1
  have ha := hk (recordStateBegin t.hsm.Host StateRegistering (readClock x t.world).1) t.info
  unfold ensureRegistered
  split
  · exact ⟨SameLifecycle.refl t, rfl⟩
  split
  · exact ⟨SameLifecycle.refl t, rfl⟩
  split
  · exact ⟨SameLifecycle.refl t, rfl⟩
  simp only
  split
  · exact ⟨⟨by rw [hb.2.2.1], hb.1, rfl⟩, rfl⟩
  split
  · refine ⟨⟨?_, ?_, rfl⟩, rfl⟩
    · simp only [runAction]
      rw [(recordStateEnd_frame _ _ _ _).2.2.1, ha.1, hb.2.2.1]
    · simp only [runAction]
      rw [(recordStateEnd_frame _ _ _ _).1, ha.2, hb.1]
  · refine ⟨⟨?_, ?_, rfl⟩, rfl⟩
    · simp only [runAction]
      rw [ha.1, hb.2.2.1]
    · simp only [runAction]
      rw [ha.2, hb.1]

theorem isComplete_iff (r : actionResult) : r.isComplete = true ↔ r = actionComplete := by
  cases r <;> simp [actionResult.isComplete]

/-- What a state handler may do.  Started with `NextState` equal to the state
it is registered for, a handler keeps the lifecycle fields of the host, and
either leaves `NextState` alone or returns Complete and moves `NextState` along
an entry of the transition table; the Deprovisioning handler picks Ready only
when no deletion has been requested and Deleting only when one has. -/
theorem handler_step (x : Externals) (t : Tick) (s : ProvisioningState) (h : stateHandler)
    (hh : handlers s = some h) (hs : t.hsm.NextState = s)
    (hk : t.hsm.Reconciler.KeepsLifecycle) :
    SameLifecycle t (h x t).2 ∧
    ((h x t).2.hsm.NextState = s ∨
      ((h x t).1 = actionComplete ∧ tableEntry s (h x t).2.hsm.NextState = true)) ∧
    (s = StateDeprovisioning → (h x t).2.hsm.NextState = StateReady →
      ptrIsZero t.hsm.Host.DeletionTimestamp = true) ∧
    (s = StateDeprovisioning → (h x t).2.hsm.NextState = StateDeleting →
      ptrIsZero t.hsm.Host.DeletionTimestamp = false) := by
  have k1 := hk.unmanaged t.hsm.Host t.info
  have k2 := hk.inspecting t.hsm.Host t.info
  have k3 := hk.matchProfile t.hsm.Host t.info
  have k4 := hk.manageReady t.hsm.Host t.info
  have k5 := hk.manageSteadyState t.hsm.Host t.info
  have k6 := hk.provisioning t.hsm.Host t.info
  have k7 := hk.deprovisioning t.hsm.Host t.info
  have k8 := hk.deleting t.hsm.Host t.info
  cases s <;> simp only [handlers, Option.some.injEq, reduceCtorEq] at hh <;> subst hh
  case StateNone =>
    unfold handleNone
    split <;> simp [SameLifecycle, SetOperationalStatus, tableEntry]
  case StateUnmanaged =>
    unfold handleUnmanaged
    simp only [runAction]
    split <;> simp_all [SameLifecycle, tableEntry, isComplete_iff]
  case StateRegistering =>
    unfold handleRegistering
    simp only
    split <;> simp [SameLifecycle, ClearError, tableEntry]
  case StateInspecting =>
    unfold handleInspecting
    simp only [runAction]
    split <;> simp_all [SameLifecycle, tableEntry, isComplete_iff]
  case StateMatchProfile =>
    unfold handleMatchProfile
    simp only [runAction]
    split <;> simp_all [SameLifecycle, tableEntry, isComplete_iff]
  case StateAvailable =>
    unfold handleReady
    simp only [runAction]
    split
    · simp [SameLifecycle, tableEntry]
    · split <;> simp_all [SameLifecycle, tableEntry, isComplete_iff]
  case StateReady =>
    unfold handleReady
    simp only [runAction]
    split
    · simp [SameLifecycle, tableEntry]
    · split <;> simp_all [SameLifecycle, tableEntry, isComplete_iff]
  case StateProvisioning =>
    unfold handleProvisioning
    simp only [runAction]
    split
    · simp [SameLifecycle, tableEntry]
    · split <;> simp_all [SameLifecycle, tableEntry, isComplete_iff]
  case StateProvisioned =>
    unfold handleProvisioned
    simp only [runAction]
    split
    · simp [SameLifecycle, tableEntry]
    · simp_all [SameLifecycle]
  case StateExternallyProvisioned =>
    unfold handleExternallyProvisioned
    simp only [runAction]
    split
    · simp_all [SameLifecycle]
    · split
      · simp [SameLifecycle, tableEntry]
      · split <;> simp [SameLifecycle, tableEntry]
  case StateDeprovisioning =>
    unfold handleDeprovisioning
    simp only [runAction]
    split
    · split <;> simp_all [SameLifecycle, tableEntry]
    · split <;> simp_all [SameLifecycle, tableEntry]
    · simp_all [SameLifecycle]
  case StateDeleting =>
    unfold handleDeleting
    simp_all [SameLifecycle, runAction]

/-- The delete check never touches the host; it either declines and leaves the
machine alone (no deletion requested, or already Deprovisioning or Deleting),
or fires and moves `NextState` along a delete-initiation entry. -/
theorem checkInitiateDelete_spec (hsm : hostStateMachine) :
    (checkInitiateDelete hsm).2.Host = hsm.Host ∧
    (checkInitiateDelete hsm).2.Reconciler = hsm.Reconciler ∧
    (((checkInitiateDelete hsm).1 = false ∧ (checkInitiateDelete hsm).2 = hsm ∧
        (ptrIsZero hsm.Host.DeletionTimestamp = true ∨ hsm.NextState = StateDeprovisioning ∨
          hsm.NextState = StateDeleting)) ∨
      ((checkInitiateDelete hsm).1 = true ∧ ptrIsZero hsm.Host.DeletionTimestamp = false ∧
        deleteEntry hsm.NextState (checkInitiateDelete hsm).2.NextState = true)) := by
  unfold checkInitiateDelete
  split
  · simp_all
  · split <;> simp_all [deleteEntry]

/-- One tick, before the transition recorder.  The body of `ReconcileState`
keeps the lifecycle fields of the host, and either leaves `NextState` at the
initial state or returns Complete with a permitted move. -/
theorem reconcileBody_step (x : Externals) (t : Tick) (s : ProvisioningState)
    (hs : t.hsm.NextState = s) (hk : t.hsm.Reconciler.KeepsLifecycle) :
    SameLifecycle t (reconcileBody x s t).2 ∧
    ((reconcileBody x s t).2.hsm.NextState = s ∨
      ((reconcileBody x s t).1 = actionComplete ∧
        mayMove (ptrIsZero t.hsm.Host.DeletionTimestamp) s
          (reconcileBody x s t).2.hsm.NextState = true)) := by
  obtain ⟨hhost, hrec, hcase⟩ := checkInitiateDelete_spec t.hsm
  unfold reconcileBody
  simp only
  rcases hcase with ⟨hf, hsame, hwhy⟩ | ⟨hfire, hdel, hentry⟩
  · rw [hf, hsame]
    simp only [Bool.false_eq_true, if_false]
    have htt : ({ t with hsm := t.hsm } : Tick) = t := rfl
    rw [htt]
    obtain ⟨hreg, hnext⟩ := ensureRegistered_frame x t hk.registering
    split
    · exact ⟨hreg, Or.inl (hnext.trans hs)⟩
    · split
      · rename_i h hh
        have hk2 : (ensureRegistered x t).2.hsm.Reconciler.KeepsLifecycle := by
          rw [hreg.2.2]; exact hk
        obtain ⟨hl, hmove, hready, hdeleting⟩ :=
          handler_step x (ensureRegistered x t).2 s h hh (hnext.trans hs) hk2
        refine ⟨hreg.trans hl, ?_⟩
        rcases hmove with hstay | ⟨hc, htab⟩
        · exact Or.inl hstay
        · refine Or.inr ⟨hc, ?_⟩
          rw [hreg.2.1] at hready hdeleting
          unfold mayMove
          cases hz : ptrIsZero t.hsm.Host.DeletionTimestamp
          · rcases hwhy with hz2 | hd | hd
            · rw [hz] at hz2; cases hz2
            · rw [hs] at hd
              subst hd
              generalize (h x (ensureRegistered x t).2).2.hsm.NextState = next at *
              cases next <;> simp_all [tableEntry, deleteEntry]
            · rw [hs] at hd
              subst hd
              simp [tableEntry] at htab
          · simp only [if_true, Bool.and_eq_true]
            refine ⟨htab, ?_⟩
            cases hsd : decide (s = StateDeprovisioning)
            · have hne : s ≠ StateDeprovisioning := of_decide_eq_false hsd
              simp [hne]
            · have heq : s = StateDeprovisioning := of_decide_eq_true hsd
              have hnd : (h x (ensureRegistered x t).2).2.hsm.NextState ≠ StateDeleting := by
                intro hd
                have := hdeleting heq hd
                rw [hz] at this
                cases this
              simp [hnd]
      · exact ⟨hreg, Or.inl (hnext.trans hs)⟩
  · rw [hfire]
    simp only [if_true]
    refine ⟨⟨by rw [hhost], by rw [hhost], hrec⟩, Or.inr ⟨trivial, ?_⟩⟩
    unfold mayMove
    rw [hs] at hentry
    rw [hdel]
    simp [hentry]

/-- The delete short-circuit: with a deletion requested and the machine in
neither Deprovisioning nor Deleting, the body returns Complete at once, having
only moved `NextState`. -/
theorem reconcileBody_delete (x : Externals) (t : Tick) (s : ProvisioningState)
    (hs : t.hsm.NextState = s)
    (hdel : ptrIsZero t.hsm.Host.DeletionTimestamp = false)
    (hdeprov : s ≠ StateDeprovisioning) (hdeleting : s ≠ StateDeleting) :
    reconcileBody x s t =
      (actionComplete,
        { t with hsm := { t.hsm with
            NextState := if s = StateProvisioning ∨ s = StateProvisioned
              then StateDeprovisioning else StateDeleting } }) := by
  unfold reconcileBody checkInitiateDelete
  subst hs
  cases hn : t.hsm.NextState <;> simp_all

/-- A tick of the driver, unfolded: the body on a fresh machine, then the
transition recorder. -/
theorem reconcile_eq (x : Externals) (reconciler : BareMetalHostReconciler)
    (host : BareMetalHost) (info : reconcileInfo) (world : World) :
    reconcile x reconciler host info world =
      ((reconcileBody x host.Status.Provisioning.State
          { hsm := newHostStateMachine host reconciler, info := info, world := world }).1,
        updateHostStateFrom x host.Status.Provisioning.State
          (reconcileBody x host.Status.Provisioning.State
            { hsm := newHostStateMachine host reconciler, info := info, world := world }).2) :=
  rfl

/-- The state of the host after a tick is the `NextState` the body decided on,
as long as the actions keep the lifecycle fields. -/
theorem reconcile_stateAfter (x : Externals) (reconciler : BareMetalHostReconciler)
    (host : BareMetalHost) (info : reconcileInfo) (world : World)
    (hk : reconciler.KeepsLifecycle) :
    stateAfter (reconcile x reconciler host info world) =
      (reconcileBody x host.Status.Provisioning.State
        { hsm := newHostStateMachine host reconciler, info := info, world := world }).2.hsm.NextState := by
  have hstep := reconcileBody_step x
    { hsm := newHostStateMachine host reconciler, info := info, world := world }
    host.Status.Provisioning.State rfl hk
  rw [reconcile_eq]
  unfold stateAfter
  simp only
  rw [updateHostStateFrom_state]
  split
  · rfl
  · rename_i hne
    rw [hstep.1.1]
    simp only [ne_eq, Decidable.not_not] at hne
    exact hne.symm

/-- One tick of the driver: the state stays, or the tick returns Complete and
the state makes a permitted move. -/
theorem reconcile_step (x : Externals) (reconciler : BareMetalHostReconciler)
    (host : BareMetalHost) (info : reconcileInfo) (world : World)
    (hk : reconciler.KeepsLifecycle) :
    stateAfter (reconcile x reconciler host info world) = host.Status.Provisioning.State ∨
    ((reconcile x reconciler host info world).1 = actionComplete ∧
      mayMove (ptrIsZero host.DeletionTimestamp) host.Status.Provisioning.State
        (stateAfter (reconcile x reconciler host info world)) = true) := by
  rw [reconcile_stateAfter x reconciler host info world hk]
  exact (reconcileBody_step x
    { hsm := newHostStateMachine host reconciler, info := info, world := world }
    host.Status.Provisioning.State rfl hk).2

/-- The sample actions change nothing, so they keep the lifecycle fields. -/
theorem constReconciler_keepsLifecycle (result : actionResult) :
    (constReconciler result).KeepsLifecycle :=
  ⟨fun _ _ => ⟨rfl, rfl⟩, fun _ _ => ⟨rfl, rfl⟩, fun _ _ => ⟨rfl, rfl⟩, fun _ _ => ⟨rfl, rfl⟩,
   fun _ _ => ⟨rfl, rfl⟩, fun _ _ => ⟨rfl, rfl⟩, fun _ _ => ⟨rfl, rfl⟩, fun _ _ => ⟨rfl, rfl⟩,
   fun _ _ => ⟨rfl, rfl⟩⟩

/-- The state after the delete short-circuit. -/
theorem stateAfter_delete_short_circuit (x : Externals)
    (reconciler : BareMetalHostReconciler)
    (host : BareMetalHost) (info : reconcileInfo) (world : World)
    (hdel : ptrIsZero host.DeletionTimestamp = false)
    (hdeprov : host.Status.Provisioning.State ≠ StateDeprovisioning)
    (hdeleting : host.Status.Provisioning.State ≠ StateDeleting) :
    stateAfter (reconcile x reconciler host info world) =
      (if host.Status.Provisioning.State = StateProvisioning ∨
          host.Status.Provisioning.State = StateProvisioned
        then StateDeprovisioning else StateDeleting) := by
  have hbody := reconcileBody_delete x
    { hsm := newHostStateMachine host reconciler, info := info, world := world }
    host.Status.Provisioning.State rfl hdel hdeprov hdeleting
  rw [reconcile_eq]
  unfold stateAfter
  simp only
  rw [hbody, updateHostStateFrom_state]
  simp only [newHostStateMachine]
  cases hs : host.Status.Provisioning.State <;> simp_all

/-! ## Deletion -/

/-- C1: a host whose deletion has been requested and that is in neither
Deprovisioning nor Deleting completes the tick without invoking any provisioner
action, and ends in Deprovisioning when it was in Provisioning or Provisioned
and in Deleting otherwise. -/
theorem delete_initiation_short_circuits (x : Externals) (reconciler : BareMetalHostReconciler)
    (host : BareMetalHost) (info : reconcileInfo) (world : World)
    (hdel : ptrIsZero host.DeletionTimestamp = false)
    (hdeprov : host.Status.Provisioning.State ≠ StateDeprovisioning)
    (hdeleting : host.Status.Provisioning.State ≠ StateDeleting) :
    (reconcile x reconciler host info world).1 = actionComplete ∧
    (reconcile x reconciler host info world).2.world.calls = world.calls ∧
    stateAfter (reconcile x reconciler host info world) =
      (if host.Status.Provisioning.State = StateProvisioning ∨
          host.Status.Provisioning.State = StateProvisioned
        then StateDeprovisioning else StateDeleting) := by
  have hbody := reconcileBody_delete x
    { hsm := newHostStateMachine host reconciler, info := info, world := world }
    host.Status.Provisioning.State rfl hdel hdeprov hdeleting
  rw [reconcile_eq]
  unfold stateAfter
  simp only
  rw [hbody]
  refine ⟨rfl, ?_, ?_⟩
  · rw [updateHostStateFrom_calls]
  · rw [updateHostStateFrom_state]
    simp only [newHostStateMachine]
    cases hs : host.Status.Provisioning.State <;> simp_all

/-- Witness for C1: a Provisioned host with a deletion timestamp. -/
theorem delete_initiation_short_circuits_witness :
    ptrIsZero (deletedHost StateProvisioned).DeletionTimestamp = false ∧
    (deletedHost StateProvisioned).Status.Provisioning.State ≠ StateDeprovisioning ∧
    (deletedHost StateProvisioned).Status.Provisioning.State ≠ StateDeleting ∧
    (reconcile sampleExternals (constReconciler actionContinue) (deletedHost StateProvisioned)
      (sampleInfo "A") World.fresh).1 = actionComplete ∧
    (reconcile sampleExternals (constReconciler actionContinue) (deletedHost StateProvisioned)
      (sampleInfo "A") World.fresh).2.world.calls = World.fresh.calls ∧
    stateAfter (reconcile sampleExternals (constReconciler actionContinue)
      (deletedHost StateProvisioned) (sampleInfo "A") World.fresh) =
      (if (deletedHost StateProvisioned).Status.Provisioning.State = StateProvisioning ∨
          (deletedHost StateProvisioned).Status.Provisioning.State = StateProvisioned
        then StateDeprovisioning else StateDeleting) :=
  ⟨by decide, by decide, by decide,
    delete_initiation_short_circuits sampleExternals (constReconciler actionContinue)
      (deletedHost StateProvisioned) (sampleInfo "A") World.fresh
      (by decide) (by decide) (by decide)⟩

/-- C2: once deletion has been requested, the state after a tick is
Deprovisioning or Deleting whatever the actions return; a host in Deleting
stays in Deleting, a host in Deprovisioning ends in Deprovisioning or Deleting,
and Ready is not re-entered. -/
theorem deletion_is_monotone (x : Externals) (reconciler : BareMetalHostReconciler)
    (host : BareMetalHost) (info : reconcileInfo) (world : World)
    (hk : reconciler.KeepsLifecycle)
    (hdel : ptrIsZero host.DeletionTimestamp = false) :
    (stateAfter (reconcile x reconciler host info world) = StateDeprovisioning ∨
      stateAfter (reconcile x reconciler host info world) = StateDeleting) ∧
    (host.Status.Provisioning.State = StateDeleting →
      stateAfter (reconcile x reconciler host info world) = StateDeleting) ∧
    (host.Status.Provisioning.State = StateDeprovisioning →
      stateAfter (reconcile x reconciler host info world) = StateDeprovisioning ∨
      stateAfter (reconcile x reconciler host info world) = StateDeleting) ∧
    stateAfter (reconcile x reconciler host info world) ≠ StateReady := by
  have hmain : stateAfter (reconcile x reconciler host info world) = StateDeprovisioning ∨
      stateAfter (reconcile x reconciler host info world) = StateDeleting := by
    by_cases h1 : host.Status.Provisioning.State = StateDeprovisioning
    · rcases reconcile_step x reconciler host info world hk with hstay | ⟨_, hmove⟩
      · exact Or.inl (hstay.trans h1)
      · rw [hdel, h1] at hmove
        right
        generalize stateAfter (reconcile x reconciler host info world) = next at *
        cases next <;> simp [mayMove, deleteEntry] at hmove ⊢
    · by_cases h2 : host.Status.Provisioning.State = StateDeleting
      · rcases reconcile_step x reconciler host info world hk with hstay | ⟨_, hmove⟩
        · exact Or.inr (hstay.trans h2)
        · rw [hdel, h2] at hmove
          simp [mayMove, deleteEntry] at hmove
      · have hc := (stateAfter_delete_short_circuit x reconciler host info world
          hdel h1 h2)
        rw [hc]
        split
        · exact Or.inl rfl
        · exact Or.inr rfl
  refine ⟨hmain, ?_, fun _ => hmain, ?_⟩
  · intro h2
    rcases reconcile_step x reconciler host info world hk with hstay | ⟨_, hmove⟩
    · exact hstay.trans h2
    · rw [hdel, h2] at hmove
      simp [mayMove, deleteEntry] at hmove
  · intro hr
    rcases hmain with h | h <;> rw [h] at hr <;> cases hr

/-- Witness for C2: deprovisioning gives up while the host is being deleted. -/
theorem deletion_is_monotone_witness :
    (constReconciler (actionFailed ErrorType.ProvisioningError)).KeepsLifecycle ∧
    ptrIsZero (deletedHost StateDeprovisioning).DeletionTimestamp = false ∧
    stateAfter (reconcile sampleExternals (constReconciler (actionFailed ErrorType.ProvisioningError))
      (deletedHost StateDeprovisioning) (sampleInfo "A") World.fresh) ≠ StateReady :=
  ⟨constReconciler_keepsLifecycle _, by decide,
    (deletion_is_monotone sampleExternals (constReconciler (actionFailed ErrorType.ProvisioningError))
      (deletedHost StateDeprovisioning) (sampleInfo "A") World.fresh
      (constReconciler_keepsLifecycle _) (by decide)).2.2.2⟩

/-! ## The transition table -/

/-- C3: from a state of the enumerated set, whatever the actions return, the
state after a tick is in the enumerated set, and when it differs from the state
before, the pair is an entry of the transition table or a delete-initiation
entry. -/
theorem transitions_follow_table (x : Externals) (reconciler : BareMetalHostReconciler)
    (host : BareMetalHost) (info : reconcileInfo) (world : World)
    (hk : reconciler.KeepsLifecycle)
    (henum : enumerated host.Status.Provisioning.State = true) :
    enumerated (stateAfter (reconcile x reconciler host info world)) = true ∧
    (stateAfter (reconcile x reconciler host info world) ≠ host.Status.Provisioning.State →
      tableEntry host.Status.Provisioning.State
          (stateAfter (reconcile x reconciler host info world)) = true ∨
        deleteEntry host.Status.Provisioning.State
          (stateAfter (reconcile x reconciler host info world)) = true) := by
  have hstep := reconcile_step x reconciler host info world hk
  generalize stateAfter (reconcile x reconciler host info world) = next at *
  generalize host.Status.Provisioning.State = s at *
  rcases hstep with hstay | ⟨_, hmove⟩
  · subst hstay
    exact ⟨henum, fun h => absurd rfl h⟩
  · unfold mayMove at hmove
    cases hz : ptrIsZero host.DeletionTimestamp <;> rw [hz] at hmove <;>
      cases s <;> cases next <;>
        simp_all [tableEntry, deleteEntry, enumerated]

/-- Witness for C3: an Available host that has registered and whose
`ManageReady` action completes moves to Provisioning, an entry of the table. -/
theorem transitions_follow_table_witness :
    (constReconciler actionComplete).KeepsLifecycle ∧
    enumerated (registeredHost StateAvailable).Status.Provisioning.State = true ∧
    (reconcile sampleExternals (constReconciler actionComplete)
      (registeredHost StateAvailable) (sampleInfo "A") World.fresh).2.world.calls =
      [ProvisionerAction.ManageReady] ∧
    stateAfter (reconcile sampleExternals (constReconciler actionComplete)
      (registeredHost StateAvailable) (sampleInfo "A") World.fresh) = StateProvisioning ∧
    enumerated (stateAfter (reconcile sampleExternals (constReconciler actionComplete)
      (registeredHost StateAvailable) (sampleInfo "A") World.fresh)) = true ∧
    (tableEntry (registeredHost StateAvailable).Status.Provisioning.State
        (stateAfter (reconcile sampleExternals (constReconciler actionComplete)
          (registeredHost StateAvailable) (sampleInfo "A") World.fresh)) = true ∨
      deleteEntry (registeredHost StateAvailable).Status.Provisioning.State
        (stateAfter (reconcile sampleExternals (constReconciler actionComplete)
          (registeredHost StateAvailable) (sampleInfo "A") World.fresh)) = true) :=
  ⟨constReconciler_keepsLifecycle _, by decide, by decide, by decide,
    (transitions_follow_table sampleExternals (constReconciler actionComplete)
      (registeredHost StateAvailable) (sampleInfo "A") World.fresh
      (constReconciler_keepsLifecycle _) (by decide)).1,
    (transitions_follow_table sampleExternals (constReconciler actionComplete)
      (registeredHost StateAvailable) (sampleInfo "A") World.fresh
      (constReconciler_keepsLifecycle _) (by decide)).2 (by decide)⟩

/-- C4: a tick that returns anything other than Complete (Continue, Delayed,
Failed or Error) leaves the provisioning state where it was. -/
theorem only_complete_changes_state (x : Externals) (reconciler : BareMetalHostReconciler)
    (host : BareMetalHost) (info : reconcileInfo) (world : World)
    (hk : reconciler.KeepsLifecycle)
    (hres : (reconcile x reconciler host info world).1 ≠ actionComplete) :
    stateAfter (reconcile x reconciler host info world) = host.Status.Provisioning.State := by
  rcases reconcile_step x reconciler host info world hk with hstay | ⟨hc, _⟩
  · exact hstay
  · exact absurd hc hres

/-- Witness for C4: provisioning is still in progress. -/
theorem only_complete_changes_state_witness :
    (constReconciler actionContinue).KeepsLifecycle ∧
    (reconcile sampleExternals (constReconciler actionContinue) (provisioningHost "http://a" "")
      (sampleInfo "A") World.fresh).1 ≠ actionComplete ∧
    stateAfter (reconcile sampleExternals (constReconciler actionContinue)
      (provisioningHost "http://a" "") (sampleInfo "A") World.fresh) =
      (provisioningHost "http://a" "").Status.Provisioning.State :=
  ⟨constReconciler_keepsLifecycle _, by decide,
    only_complete_changes_state sampleExternals (constReconciler actionContinue)
      (provisioningHost "http://a" "") (sampleInfo "A") World.fresh
      (constReconciler_keepsLifecycle _) (by decide)⟩

/-! ## Entering Registering -/

/-- C5, as stated, fails: an Unmanaged host whose `Unmanaged` action completes
moves to Registering although its state before the tick is not None. -/
theorem registering_entered_from_unmanaged :
    (sampleHost StateUnmanaged).Status.Provisioning.State ≠ StateNone ∧
    (sampleHost StateUnmanaged).Status.Provisioning.State ≠ StateRegistering ∧
    (constReconciler actionComplete).KeepsLifecycle ∧
    (reconcile sampleExternals (constReconciler actionComplete) (sampleHost StateUnmanaged)
      (sampleInfo "A") World.fresh).2.world.calls = [ProvisionerAction.Unmanaged] ∧
    stateAfter (reconcile sampleExternals (constReconciler actionComplete)
      (sampleHost StateUnmanaged) (sampleInfo "A") World.fresh) = StateRegistering :=
  ⟨by decide, by decide, constReconciler_keepsLifecycle _, by decide, by decide⟩

/-- C5, amended: Registering is entered only from None and from Unmanaged; a
tick that starts in any other state does not end in a newly entered
Registering. -/
theorem registering_entered_only_from_none_or_unmanaged (x : Externals)
    (reconciler : BareMetalHostReconciler)
    (host : BareMetalHost) (info : reconcileInfo) (world : World)
    (hk : reconciler.KeepsLifecycle)
    (hafter : stateAfter (reconcile x reconciler host info world) = StateRegistering) :
    host.Status.Provisioning.State = StateNone ∨
    host.Status.Provisioning.State = StateUnmanaged ∨
    host.Status.Provisioning.State = StateRegistering := by
  have hstep := reconcile_step x reconciler host info world hk
  rw [hafter] at hstep
  generalize host.Status.Provisioning.State = s at *
  rcases hstep with hstay | ⟨_, hmove⟩
  · exact Or.inr (Or.inr hstay.symm)
  · unfold mayMove at hmove
    cases hz : ptrIsZero host.DeletionTimestamp <;> rw [hz] at hmove <;>
      cases s <;> simp_all [tableEntry, deleteEntry]

/-- Witness for C5, amended: the move None → Registering. -/
theorem registering_entered_only_from_none_or_unmanaged_witness :
    (constReconciler actionContinue).KeepsLifecycle ∧
    stateAfter (reconcile sampleExternals (constReconciler actionContinue)
      (sampleHost StateNone) (sampleInfo "A") World.fresh) = StateRegistering ∧
    ((sampleHost StateNone).Status.Provisioning.State = StateNone ∨
      (sampleHost StateNone).Status.Provisioning.State = StateUnmanaged ∨
      (sampleHost StateNone).Status.Provisioning.State = StateRegistering) :=
  ⟨constReconciler_keepsLifecycle _, by decide,
    registering_entered_only_from_none_or_unmanaged sampleExternals
      (constReconciler actionContinue) (sampleHost StateNone) (sampleInfo "A") World.fresh
      (constReconciler_keepsLifecycle _) (by decide)⟩

/-! ## Registration -/

/-- The transition recorder does nothing when `NextState` is the initial
state. -/
theorem updateHostStateFrom_same (x : Externals) (s : ProvisioningState) (t : Tick)
    (h : t.hsm.NextState = s) : updateHostStateFrom x s t = t := by
  unfold updateHostStateFrom
  simp [h]

/-- Without a deletion request the delete check declines. -/
theorem checkInitiateDelete_declines (hsm : hostStateMachine)
    (h : ptrIsZero hsm.Host.DeletionTimestamp = true) :
    checkInitiateDelete hsm = (false, hsm) := by
  unfold checkInitiateDelete
  simp [h]

/-- When the delete check declines and the registration hook returns a result,
the body returns that result and counts one required registration. -/
theorem reconcileBody_registration (x : Externals) (t : Tick) (s : ProvisioningState)
    (r : actionResult)
    (hdel : ptrIsZero t.hsm.Host.DeletionTimestamp = true)
    (hreg : (ensureRegistered x t).1 = some r) :
    reconcileBody x s t =
      (r, { (ensureRegistered x t).2 with world := { (ensureRegistered x t).2.world with
          hostRegistrationRequired :=
            (ensureRegistered x t).2.world.hostRegistrationRequired + 1 } }) := by
  unfold reconcileBody
  rw [checkInitiateDelete_declines t.hsm hdel]
  simp only [Bool.false_eq_true, if_false]
  have htt : ({ t with hsm := t.hsm } : Tick) = t := rfl
  rw [htt]
  split
  · rename_i r2 h2
    rw [hreg] at h2
    cases h2
    rfl
  · rename_i h2
    rw [hreg] at h2
    cases h2

/-- The skip conditions: the hook returns the empty result and changes
nothing. -/
theorem ensureRegistered_skip (x : Externals) (t : Tick) (h : registrationSkipped t) :
    ensureRegistered x t = (none, t) := by
  unfold ensureRegistered
  rcases h with h | h | h
  · simp [h]
  · split
    · rfl
    · simp [h]
  · split
    · rfl
    · split
      · rfl
      · simp [h]

/-- The credential-failure fast path: the hook fails at once, having only read
the clock and opened the Registering interval. -/
theorem ensureRegistered_fast (x : Externals) (t : Tick) (hskip : ¬ registrationSkipped t)
    (herr : t.hsm.Host.Status.ErrorType = ErrorType.RegistrationError)
    (htried : t.hsm.Host.Status.TriedCredentials.Match t.info.bmcCredsSecret = true) :
    ensureRegistered x t =
      (some (actionFailed ErrorType.RegistrationError), registrationBegun x t) := by
  have hb := recordStateBegin_frame t.hsm.Host StateRegistering (x.Now t.world.clockReads)
  unfold registrationSkipped at hskip
  simp only [not_or] at hskip
  obtain ⟨⟨h1, h2⟩, h3, h4⟩ := hskip
  unfold ensureRegistered
  simp only [h1, h2, h3, h4, or_self, if_false, Bool.not_eq_true, ne_eq, readClock]
  simp only [Bool.not_eq_false] at h3
  simp only [h3, Bool.not_true, Bool.false_eq_true, if_false]
  rw [if_pos ⟨by rw [hb.2.2.2.1]; exact herr, by rw [hb.2.2.2.2.2.2]; exact htried⟩]
  rfl

/-- The registration path: the hook invokes `actionRegistering` once, on the
host with the Registering interval opened, and returns its result. -/
theorem ensureRegistered_register (x : Externals) (t : Tick) (hskip : ¬ registrationSkipped t)
    (hretry : ¬ (t.hsm.Host.Status.ErrorType = ErrorType.RegistrationError ∧
      t.hsm.Host.Status.TriedCredentials.Match t.info.bmcCredsSecret = true)) :
    (ensureRegistered x t).1 =
      some (t.hsm.Reconciler.actionRegistering (registrationBegun x t).hsm.Host t.info).result ∧
    (ensureRegistered x t).2.world.calls = t.world.calls ++ [ProvisionerAction.Register] ∧
    (ensureRegistered x t).2.hsm.NextState = t.hsm.NextState ∧
    (ensureRegistered x t).2.world.hostRegistrationRequired =
      t.world.hostRegistrationRequired ∧
    (Metal3.KeepsLifecycle t.hsm.Reconciler.actionRegistering →
      (ensureRegistered x t).2.hsm.Host.Status.Provisioning.State =
        t.hsm.Host.Status.Provisioning.State) := by
  have hb := recordStateBegin_frame t.hsm.Host StateRegistering (x.Now t.world.clockReads)
  unfold registrationSkipped at hskip
  simp only [not_or] at hskip
  obtain ⟨⟨h1, h2⟩, h3, h4⟩ := hskip
  have hretry2 : ¬ ((recordStateBegin t.hsm.Host StateRegistering
        (x.Now t.world.clockReads)).Status.ErrorType = ErrorType.RegistrationError ∧
      (recordStateBegin t.hsm.Host StateRegistering
        (x.Now t.world.clockReads)).Status.TriedCredentials.Match t.info.bmcCredsSecret = true) := by
    rw [hb.2.2.2.1, hb.2.2.2.2.2.2]; exact hretry
  unfold ensureRegistered
  simp only [h1, h2, h4, or_self, if_false, readClock]
  simp only [Bool.not_eq_false] at h3
  simp only [h3, Bool.not_true, Bool.false_eq_true, if_false]
  rw [if_neg hretry2]
  split
  · refine ⟨rfl, rfl, rfl, rfl, fun hk => ?_⟩
    simp only [runAction]
    rw [(recordStateEnd_frame _ _ _ _).2.2.1, (hk _ _).1, hb.2.2.1]
  · refine ⟨rfl, rfl, rfl, rfl, fun hk => ?_⟩
    simp only [runAction]
    rw [(hk _ _).1, hb.2.2.1]

/-- When the delete check declines and registration is skipped, the body is the
handler of the initial state, or the missing-handler error. -/
theorem reconcileBody_dispatch (x : Externals) (t : Tick) (s : ProvisioningState)
    (hcheck : checkInitiateDelete t.hsm = (false, t.hsm)) (hskip : registrationSkipped t) :
    reconcileBody x s t =
      match handlers s with
      | some stateHandler => stateHandler x t
      | none => (actionError ("No handler found for state \"" ++ s.name ++ "\""), t) := by
  unfold reconcileBody
  rw [hcheck]
  simp only [Bool.false_eq_true, if_false]
  have htt : ({ t with hsm := t.hsm } : Tick) = t := rfl
  rw [htt, ensureRegistered_skip x t hskip]

/-- No state handler invokes `Register`: a handler invokes at most one action,
and never that one. -/
theorem handler_never_registers (x : Externals) (t : Tick) (s : ProvisioningState)
    (h : stateHandler) (hh : handlers s = some h) :
    ∃ l, (h x t).2.world.calls = t.world.calls ++ l ∧ ProvisionerAction.Register ∉ l ∧
      l.length ≤ 1 := by
  cases s <;> simp only [handlers, Option.some.injEq, reduceCtorEq] at hh <;> subst hh <;>
    simp only [handleNone, handleUnmanaged, handleRegistering, handleInspecting,
      handleMatchProfile, handleExternallyProvisioned, handleReady, handleProvisioning,
      handleProvisioned, handleDeprovisioning, handleDeleting, runAction] <;>
    (repeat' split) <;>
    first
      | (refine ⟨[], ?_, List.not_mem_nil _, Nat.zero_le _⟩; simp; done)
      | (refine ⟨[_], rfl, ?_, Nat.le_refl _⟩; simp)

/-- C6, as stated, fails: a host whose registration failed with the credentials
still in the secret, but whose deletion has been requested while it is in
Deprovisioning, has its `Deprovision` action invoked. -/
theorem failed_registration_does_not_stop_deprovisioning :
    (retiringHost "A").Status.ErrorType = ErrorType.RegistrationError ∧
    (retiringHost "A").Status.TriedCredentials.Match (sampleInfo "A").bmcCredsSecret = true ∧
    (reconcile sampleExternals (constReconciler actionContinue) (retiringHost "A")
      (sampleInfo "A") World.fresh).2.world.calls = [ProvisionerAction.Deprovision] :=
  ⟨by decide, by decide, by decide⟩

/-- C6, amended: for a host whose registration failed with the credentials
still in the secret, a tick never invokes `Register`; and it invokes no
provisioner action at all when the registration hook is not skipped, that is
when no deletion has been requested, the state is neither None nor Unmanaged
and the good credentials do not match the secret. -/
theorem failed_registration_is_not_retried (x : Externals)
    (reconciler : BareMetalHostReconciler)
    (host : BareMetalHost) (info : reconcileInfo) (world : World)
    (herr : host.Status.ErrorType = ErrorType.RegistrationError)
    (htried : host.Status.TriedCredentials.Match info.bmcCredsSecret = true) :
    (∃ l, (reconcile x reconciler host info world).2.world.calls = world.calls ++ l ∧
      ProvisionerAction.Register ∉ l) ∧
    (ptrIsZero host.DeletionTimestamp = true →
      host.Status.Provisioning.State ≠ StateNone →
      host.Status.Provisioning.State ≠ StateUnmanaged →
      host.Status.GoodCredentials.Match info.bmcCredsSecret = false →
      (reconcile x reconciler host info world).2.world.calls = world.calls) := by
  rw [reconcile_eq]
  simp only [updateHostStateFrom_calls]
  generalize ht :
    ({ hsm := newHostStateMachine host reconciler, info := info, world := world } : Tick) = t
  have hhost : t.hsm.Host = host := by rw [← ht]; rfl
  have hnext : t.hsm.NextState = host.Status.Provisioning.State := by rw [← ht]; rfl
  have hinfo : t.info = info := by rw [← ht]
  have hworld : t.world = world := by rw [← ht]
  have hfast : ¬ registrationSkipped t →
      (reconcileBody x host.Status.Provisioning.State t).2.world.calls = world.calls := by
    intro hskip
    have hz : ptrIsZero t.hsm.Host.DeletionTimestamp = true := by
      cases hp : ptrIsZero t.hsm.Host.DeletionTimestamp
      · exact absurd (Or.inr (Or.inl hp)) hskip
      · rfl
    have hf := ensureRegistered_fast x t hskip (by rw [hhost]; exact herr)
      (by rw [hhost, hinfo]; exact htried)
    rw [reconcileBody_registration x t _ (actionFailed ErrorType.RegistrationError) hz
      (by rw [hf]), hf]
    simp only [registrationBegun]
    rw [hworld]
  constructor
  · by_cases hskip : registrationSkipped t
    · obtain ⟨-, -, hcase⟩ := checkInitiateDelete_spec t.hsm
      rcases hcase with ⟨hf, hsame, -⟩ | ⟨hfire, -, -⟩
      · have hcheck : checkInitiateDelete t.hsm = (false, t.hsm) := Prod.ext hf hsame
        rw [reconcileBody_dispatch x t _ hcheck hskip]
        split
        · rename_i h hh
          obtain ⟨l, hl, hnot, -⟩ := handler_never_registers x t _ h hh
          exact ⟨l, by rw [hl, hworld], hnot⟩
        · exact ⟨[], by simp [hworld], by simp⟩
      · refine ⟨[], ?_, by simp⟩
        unfold reconcileBody
        simp [hfire, hworld]
    · exact ⟨[], by simp [hfast hskip], by simp⟩
  · intro hz hnone hunm hgood
    apply hfast
    unfold registrationSkipped
    rw [hnext, hhost, hinfo, hz, hgood]
    simp [hnone, hunm]

/-- Witness for C6, amended: an Inspecting host whose registration failed with
the credentials `A`, reconciled while the secret is still `A`. -/
theorem failed_registration_is_not_retried_witness :
    (failedRegistrationHost StateInspecting "A").Status.ErrorType =
      ErrorType.RegistrationError ∧
    (failedRegistrationHost StateInspecting "A").Status.TriedCredentials.Match
      (sampleInfo "A").bmcCredsSecret = true ∧
    (reconcile sampleExternals (constReconciler actionComplete)
      (failedRegistrationHost StateInspecting "A") (sampleInfo "A")
      World.fresh).2.world.calls = World.fresh.calls :=
  ⟨by decide, by decide,
    (failed_registration_is_not_retried sampleExternals (constReconciler actionComplete)
      (failedRegistrationHost StateInspecting "A") (sampleInfo "A") World.fresh
      (by decide) (by decide)).2 (by decide) (by decide) (by decide) (by decide)⟩

/-- C7: the credential-failure fast path.  With no deletion requested, a state
beyond Unmanaged, good credentials that do not match the secret, a
RegistrationError on record and tried credentials that match the secret, the
tick returns Failed(RegistrationError), invokes no provisioner action, counts
one required registration and leaves the state and the error type alone. -/
theorem credential_failure_fast_path (x : Externals) (reconciler : BareMetalHostReconciler)
    (host : BareMetalHost) (info : reconcileInfo) (world : World)
    (hdel : ptrIsZero host.DeletionTimestamp = true)
    (hnone : host.Status.Provisioning.State ≠ StateNone)
    (hunm : host.Status.Provisioning.State ≠ StateUnmanaged)
    (hgood : host.Status.GoodCredentials.Match info.bmcCredsSecret = false)
    (herr : host.Status.ErrorType = ErrorType.RegistrationError)
    (htried : host.Status.TriedCredentials.Match info.bmcCredsSecret = true) :
    (reconcile x reconciler host info world).1 = actionFailed ErrorType.RegistrationError ∧
    (reconcile x reconciler host info world).2.world.calls = world.calls ∧
    stateAfter (reconcile x reconciler host info world) = host.Status.Provisioning.State ∧
    (reconcile x reconciler host info world).2.hsm.Host.Status.ErrorType =
      host.Status.ErrorType ∧
    (reconcile x reconciler host info world).2.world.hostRegistrationRequired =
      world.hostRegistrationRequired + 1 := by
  have hskip : ¬ registrationSkipped
      { hsm := newHostStateMachine host reconciler, info := info, world := world } := by
    unfold registrationSkipped
    simp only [newHostStateMachine, hdel, hgood, hnone, hunm]
    simp
  have hf := ensureRegistered_fast x _ hskip herr htried
  have hbody := reconcileBody_registration x
    { hsm := newHostStateMachine host reconciler, info := info, world := world }
    host.Status.Provisioning.State (actionFailed ErrorType.RegistrationError) hdel
    (by rw [hf])
  have hb := recordStateBegin_frame host StateRegistering (x.Now world.clockReads)
  rw [reconcile_eq, hbody, hf]
  unfold stateAfter
  simp only
  rw [updateHostStateFrom_same]
  · refine ⟨trivial, rfl, ?_, ?_, rfl⟩
    · simp only [registrationBegun, newHostStateMachine]
      rw [hb.2.2.1]
    · simp only [registrationBegun, newHostStateMachine]
      rw [hb.2.2.2.1]
  · rfl

/-- Witness for C7: State = Inspecting, tried fingerprint A, current
fingerprint A. -/
theorem credential_failure_fast_path_witness :
    (reconcile sampleExternals (constReconciler actionComplete)
      (failedRegistrationHost StateInspecting "A") (sampleInfo "A") World.fresh).1 =
      actionFailed ErrorType.RegistrationError ∧
    (reconcile sampleExternals (constReconciler actionComplete)
      (failedRegistrationHost StateInspecting "A") (sampleInfo "A")
      World.fresh).2.world.calls = [] ∧
    stateAfter (reconcile sampleExternals (constReconciler actionComplete)
      (failedRegistrationHost StateInspecting "A") (sampleInfo "A") World.fresh) =
      StateInspecting ∧
    (reconcile sampleExternals (constReconciler actionComplete)
      (failedRegistrationHost StateInspecting "A") (sampleInfo "A")
      World.fresh).2.hsm.Host.Status.ErrorType = ErrorType.RegistrationError ∧
    (reconcile sampleExternals (constReconciler actionComplete)
      (failedRegistrationHost StateInspecting "A") (sampleInfo "A")
      World.fresh).2.world.hostRegistrationRequired = 1 :=
  credential_failure_fast_path sampleExternals (constReconciler actionComplete)
    (failedRegistrationHost StateInspecting "A") (sampleInfo "A") World.fresh
    (by decide) (by decide) (by decide) (by decide) (by decide) (by decide)

/-- C8: `ensureRegistered` returns the empty result exactly when a skip
condition holds (NextState is None or Unmanaged, or a deletion has been
requested, or the good credentials match the secret), and then it changes
nothing: the host with its operation history, the reconcile context and the
list of invoked actions are as before, so `Register` has not been invoked. -/
theorem ensureRegistered_empty_iff (x : Externals) (t : Tick) :
    ((ensureRegistered x t).1 = none ↔
      ((t.hsm.NextState = StateNone ∨ t.hsm.NextState = StateUnmanaged) ∨
        ptrIsZero t.hsm.Host.DeletionTimestamp = false ∨
        t.hsm.Host.Status.GoodCredentials.Match t.info.bmcCredsSecret = true)) ∧
    ((ensureRegistered x t).1 = none →
      (ensureRegistered x t).2.hsm.Host = t.hsm.Host ∧
      (ensureRegistered x t).2.world.calls = t.world.calls ∧
      (ensureRegistered x t).2 = t) := by
  have hiff : (ensureRegistered x t).1 = none ↔ registrationSkipped t := by
    constructor
    · intro hnone
      by_contra hskip
      by_cases hretry : t.hsm.Host.Status.ErrorType = ErrorType.RegistrationError ∧
          t.hsm.Host.Status.TriedCredentials.Match t.info.bmcCredsSecret = true
      · rw [ensureRegistered_fast x t hskip hretry.1 hretry.2] at hnone
        cases hnone
      · rw [(ensureRegistered_register x t hskip hretry).1] at hnone
        cases hnone
    · intro hskip
      rw [ensureRegistered_skip x t hskip]
  refine ⟨hiff, fun hnone => ?_⟩
  rw [ensureRegistered_skip x t (hiff.mp hnone)]
  exact ⟨rfl, rfl, rfl⟩

/-- C9: the registration path.  With no deletion requested, a state beyond
Unmanaged, good credentials that do not match the secret, and no
RegistrationError on record for the credentials in the secret, the tick invokes
`Register` once and nothing else, returns what `Register` returned and leaves
the provisioning state alone, whatever that result is. -/
theorem registration_replaces_handler (x : Externals) (reconciler : BareMetalHostReconciler)
    (host : BareMetalHost) (info : reconcileInfo) (world : World)
    (hk : Metal3.KeepsLifecycle reconciler.actionRegistering)
    (hdel : ptrIsZero host.DeletionTimestamp = true)
    (hnone : host.Status.Provisioning.State ≠ StateNone)
    (hunm : host.Status.Provisioning.State ≠ StateUnmanaged)
    (hgood : host.Status.GoodCredentials.Match info.bmcCredsSecret = false)
    (hretry : ¬ (host.Status.ErrorType = ErrorType.RegistrationError ∧
      host.Status.TriedCredentials.Match info.bmcCredsSecret = true)) :
    (reconcile x reconciler host info world).2.world.calls =
      world.calls ++ [ProvisionerAction.Register] ∧
    (reconcile x reconciler host info world).1 =
      (reconciler.actionRegistering
        (recordStateBegin host StateRegistering (x.Now world.clockReads)) info).result ∧
    stateAfter (reconcile x reconciler host info world) = host.Status.Provisioning.State ∧
    (reconcile x reconciler host info world).2.world.hostRegistrationRequired =
      world.hostRegistrationRequired + 1 := by
  have hskip : ¬ registrationSkipped
      { hsm := newHostStateMachine host reconciler, info := info, world := world } := by
    unfold registrationSkipped
    simp only [newHostStateMachine, hdel, hgood, hnone, hunm]
    simp
  obtain ⟨hres, hcalls, hnext, hcount, hstate⟩ :=
    ensureRegistered_register x _ hskip hretry
  have hbody := reconcileBody_registration x
    { hsm := newHostStateMachine host reconciler, info := info, world := world }
    host.Status.Provisioning.State _ hdel hres
  rw [reconcile_eq, hbody]
  unfold stateAfter
  simp only
  rw [updateHostStateFrom_same]
  · exact ⟨hcalls, rfl, hstate hk, by simp only [hcount]⟩
  · exact hnext

/-- Witness for C9: State = Inspecting, tried fingerprint A, current
fingerprint B, `Register` returns Complete, and the state stays Inspecting. -/
theorem registration_replaces_handler_witness :
    (reconcile sampleExternals (constReconciler actionComplete)
      (failedRegistrationHost StateInspecting "A") (sampleInfo "B")
      World.fresh).2.world.calls = [ProvisionerAction.Register] ∧
    (reconcile sampleExternals (constReconciler actionComplete)
      (failedRegistrationHost StateInspecting "A") (sampleInfo "B") World.fresh).1 =
      actionComplete ∧
    stateAfter (reconcile sampleExternals (constReconciler actionComplete)
      (failedRegistrationHost StateInspecting "A") (sampleInfo "B") World.fresh) =
      StateInspecting ∧
    (reconcile sampleExternals (constReconciler actionComplete)
      (failedRegistrationHost StateInspecting "A") (sampleInfo "B")
      World.fresh).2.world.hostRegistrationRequired = 1 :=
  registration_replaces_handler sampleExternals (constReconciler actionComplete)
    (failedRegistrationHost StateInspecting "A") (sampleInfo "B") World.fresh
    (fun _ _ => ⟨rfl, rfl⟩) (by decide) (by decide) (by decide) (by decide) (by decide)

/-! ## Cancelled provisioning -/

/-- C10: `provisioningCancelled` is true exactly when the host has a recorded
error, or the spec has no image, or the URL of the spec image is empty, or the
URL recorded in the provisioning status is non-empty and differs from the URL
of the spec image; in particular it is false when there is no error, the spec
image has a non-empty URL and the status URL is still empty. -/
theorem provisioningCancelled_iff (x : Externals) (hsm : hostStateMachine) :
    (provisioningCancelled x hsm = true ↔
      (x.HasError hsm.Host = true ∨
        hsm.Host.Spec.Image = none ∨
        (∃ image, hsm.Host.Spec.Image = some image ∧ image.URL = "") ∨
        (∃ image, hsm.Host.Spec.Image = some image ∧
          hsm.Host.Status.Provisioning.Image.URL ≠ "" ∧
          hsm.Host.Status.Provisioning.Image.URL ≠ image.URL))) ∧
    (∀ image, x.HasError hsm.Host = false → hsm.Host.Spec.Image = some image →
      image.URL ≠ "" → hsm.Host.Status.Provisioning.Image.URL = "" →
      provisioningCancelled x hsm = false) := by
  unfold provisioningCancelled
  constructor
  · cases herr : x.HasError hsm.Host
    · cases himg : hsm.Host.Spec.Image with
      | none => simp
      | some image =>
        by_cases h1 : image.URL = ""
        · simp [h1]
        · by_cases h2 : hsm.Host.Status.Provisioning.Image.URL = ""
          · simp [h1, h2]
          · by_cases h3 : image.URL = hsm.Host.Status.Provisioning.Image.URL
            · simp [h1, h2, h3]
            · have h4 : hsm.Host.Status.Provisioning.Image.URL ≠ image.URL :=
                fun h => h3 h.symm
              simp [h1, h2, h3, h4]
    · simp
  · intro image herr himg h1 h2
    simp [herr, himg, h1, h2]

/-- The predicate evaluated on three hosts: image URL changed while
provisioning, status URL still empty, and no image in the spec. -/
theorem provisioningCancelled_samples :
    provisioningCancelled sampleExternals
      (newHostStateMachine (provisioningHost "http://a" "http://b")
        (constReconciler actionContinue)) = true ∧
    provisioningCancelled sampleExternals
      (newHostStateMachine (provisioningHost "http://a" "")
        (constReconciler actionContinue)) = false ∧
    provisioningCancelled sampleExternals
      (newHostStateMachine (sampleHost StateProvisioning)
        (constReconciler actionContinue)) = true :=
  ⟨by decide, by decide, by decide⟩

/-! ## Operation metrics -/

theorem timeIsZero_iff (t : Time) : timeIsZero t = true ↔ t = 0 := by
  simp [timeIsZero]

theorem find_replaceMetric_same (s : ProvisioningState) (m : OperationMetric)
    (l : List (ProvisioningState × OperationMetric))
    (h : (l.find? (fun e => e.1 == s)).isSome = true) :
    (replaceMetric s m l).find? (fun e => e.1 == s) = some (s, m) := by
  induction l with
  | nil => simp at h
  | cons e rest ih =>
    unfold replaceMetric
    by_cases he : e.1 = s
    · simp [he]
    · have hb : (e.1 == s) = false := by simpa using he
      simp only [hb, Bool.false_eq_true, if_false, List.find?_cons]
      simp only [List.find?_cons, hb] at h
      exact ih h

theorem find_replaceMetric_other (s s' : ProvisioningState) (m : OperationMetric)
    (l : List (ProvisioningState × OperationMetric)) (hne : s' ≠ s) :
    ((replaceMetric s m l).find? (fun e => e.1 == s')).map Prod.snd =
      (l.find? (fun e => e.1 == s')).map Prod.snd := by
  induction l with
  | nil => rfl
  | cons e rest ih =>
    unfold replaceMetric
    by_cases he : e.1 = s
    · have h1 : (e.1 == s') = false := by
        simp only [beq_eq_false_iff_ne, ne_eq]
        rw [he]
        exact fun h => hne h.symm
      have h2 : (s == s') = false := by
        simp only [beq_eq_false_iff_ne, ne_eq]
        exact fun h => hne h.symm
      simp [he, h1, h2, List.find?_cons]
    · have hb : (e.1 == s) = false := by simpa using he
      simp only [hb, Bool.false_eq_true, if_false, List.find?_cons]
      split
      · rfl
      · exact ih

/-- A write through the metric pointer of a state is read back. -/
theorem metric_set_same (host : BareMetalHost) (s : ProvisioningState)
    (m m₀ : OperationMetric) (h : OperationMetricForState host s = some m₀) :
    OperationMetricForState (setOperationMetric host s m) s = some m := by
  unfold OperationMetricForState setOperationMetric
  simp only
  rw [find_replaceMetric_same]
  · rfl
  · unfold OperationMetricForState at h
    cases hf : host.Status.OperationHistory.find? (fun e => e.1 == s) with
    | none => rw [hf] at h; cases h
    | some _ => rfl

/-- A write through the metric pointer of a state leaves the metrics of the
other states alone. -/
theorem metric_set_other (host : BareMetalHost) (s s' : ProvisioningState)
    (m : OperationMetric) (hne : s' ≠ s) :
    OperationMetricForState (setOperationMetric host s m) s' =
      OperationMetricForState host s' := by
  unfold OperationMetricForState setOperationMetric
  exact find_replaceMetric_other s s' m _ hne

/-- A state without a metric: `recordStateEnd` does nothing. -/
theorem recordStateEnd_none (info : reconcileInfo) (host : BareMetalHost)
    (s : ProvisioningState) (time : Time) (h : OperationMetricForState host s = none) :
    recordStateEnd info host s time = (info, host) := by
  unfold recordStateEnd
  rw [h]

/-- An interval that was never started: `recordStateEnd` does nothing. -/
theorem recordStateEnd_idle (info : reconcileInfo) (host : BareMetalHost)
    (s : ProvisioningState) (time : Time) (m : OperationMetric)
    (h : OperationMetricForState host s = some m) (hstart : m.Start = 0) :
    recordStateEnd info host s time = (info, host) := by
  unfold recordStateEnd
  rw [h]
  simp [timeIsZero, hstart]

/-- A started interval: `recordStateEnd` stamps its end and queues one
observation of the state's duration. -/
theorem recordStateEnd_started (info : reconcileInfo) (host : BareMetalHost)
    (s : ProvisioningState) (time : Time) (m : OperationMetric)
    (h : OperationMetricForState host s = some m) (hstart : m.Start ≠ 0) :
    recordStateEnd info host s time =
      ({ info with postSaveCallbacks :=
          info.postSaveCallbacks ++ [Callback.observeStateTime s] },
        setOperationMetric host s { m with End := time }) := by
  unfold recordStateEnd
  rw [h]
  simp [timeIsZero, hstart]

/-- A state without a metric: `recordStateBegin` does nothing. -/
theorem recordStateBegin_none (host : BareMetalHost) (s : ProvisioningState) (time : Time)
    (h : OperationMetricForState host s = none) : recordStateBegin host s time = host := by
  unfold recordStateBegin
  rw [h]

/-- An open interval: `recordStateBegin` leaves it alone. -/
theorem recordStateBegin_open (host : BareMetalHost) (s : ProvisioningState) (time : Time)
    (m : OperationMetric) (h : OperationMetricForState host s = some m)
    (hstart : m.Start ≠ 0) (hend : m.End = 0) : recordStateBegin host s time = host := by
  unfold recordStateBegin
  rw [h]
  simp [timeIsZero, hstart, hend]

/-- No open interval: `recordStateBegin` starts a fresh one. -/
theorem recordStateBegin_fresh (host : BareMetalHost) (s : ProvisioningState) (time : Time)
    (m : OperationMetric) (h : OperationMetricForState host s = some m)
    (hclosed : m.Start = 0 ∨ m.End ≠ 0) :
    recordStateBegin host s time = setOperationMetric host s { Start := time, End := 0 } := by
  unfold recordStateBegin
  rw [h]
  rcases hclosed with h0 | h1
  · simp [timeIsZero, h0]
  · simp [timeIsZero, h1]

/-- The function `recordStateBegin` touches no metric but the one of its state. -/
theorem recordStateBegin_other (host : BareMetalHost) (s s' : ProvisioningState) (time : Time)
    (hne : s' ≠ s) :
    OperationMetricForState (recordStateBegin host s time) s' =
      OperationMetricForState host s' := by
  unfold recordStateBegin
  split
  · split
    · exact metric_set_other host s s' _ hne
    · rfl
  · rfl

/-- The function `recordStateEnd` touches no metric but the one of its state. -/
theorem recordStateEnd_other (info : reconcileInfo) (host : BareMetalHost)
    (s s' : ProvisioningState) (time : Time) (hne : s' ≠ s) :
    OperationMetricForState (recordStateEnd info host s time).2 s' =
      OperationMetricForState host s' := by
  unfold recordStateEnd
  split
  · split
    · exact metric_set_other host s s' _ hne
    · rfl
  · rfl

/-- C15: interval stamping.  For a state with an operation metric,
`recordStateEnd` sets the end of the interval to the given time and queues
one observation when the start is non-zero, and otherwise changes nothing;
`recordStateBegin` replaces the metric by a fresh one, started at the given
time with no end, when there is no open interval (start zero or end non-zero),
and leaves an open interval untouched. -/
theorem interval_stamping (info : reconcileInfo) (host : BareMetalHost)
    (S : ProvisioningState) (t : Time) (m : OperationMetric)
    (hm : OperationMetricForState host S = some m) :
    (m.Start ≠ 0 →
      OperationMetricForState (recordStateEnd info host S t).2 S =
        some { Start := m.Start, End := t } ∧
      (recordStateEnd info host S t).1.postSaveCallbacks =
        info.postSaveCallbacks ++ [Callback.observeStateTime S]) ∧
    (m.Start = 0 → recordStateEnd info host S t = (info, host)) ∧
    (m.Start = 0 ∨ m.End ≠ 0 →
      OperationMetricForState (recordStateBegin host S t) S = some { Start := t, End := 0 }) ∧
    (m.Start ≠ 0 → m.End = 0 → recordStateBegin host S t = host) := by
  refine ⟨fun hs => ?_, fun hs => recordStateEnd_idle info host S t m hm hs, fun hc => ?_,
    fun hs he => recordStateBegin_open host S t m hm hs he⟩
  · rw [recordStateEnd_started info host S t m hm hs]
    exact ⟨metric_set_same host S _ m hm, rfl⟩
  · rw [recordStateBegin_fresh host S t m hm hc]
    exact metric_set_same host S _ m hm

/-- Witness for C15: the Inspecting interval of a host that started inspecting
at time 3. -/
theorem interval_stamping_witness :
    OperationMetricForState (inspectingSince 3) StateInspecting = some { Start := 3, End := 0 } ∧
    OperationMetricForState
      (recordStateEnd (sampleInfo "A") (inspectingSince 3) StateInspecting 9).2
      StateInspecting = some { Start := 3, End := 9 } ∧
    recordStateBegin (inspectingSince 3) StateInspecting 9 = inspectingSince 3 :=
  ⟨by decide,
    ((interval_stamping (sampleInfo "A") (inspectingSince 3) StateInspecting 9
      { Start := 3, End := 0 } (by decide)).1 (by decide)).1,
    (interval_stamping (sampleInfo "A") (inspectingSince 3) StateInspecting 9
      { Start := 3, End := 0 } (by decide)).2.2.2 (by decide) rfl⟩

/-! ## The transition recorder -/

/-- The boot-mode snapshot always leaves the computed boot mode in the status. -/
theorem updateBootModeStatus_host (x : Externals) (host : BareMetalHost) :
    (updateBootModeStatus x host).2 = setBootMode host (x.BootMode host) := by
  unfold updateBootModeStatus setBootMode
  simp only
  split
  · rename_i h
    rw [h]
  · rfl

/-- The transition recorder on a state change, spelled out. -/
theorem updateHostStateFrom_changed (x : Externals) (s : ProvisioningState) (t : Tick)
    (hne : t.hsm.NextState ≠ s) :
    updateHostStateFrom x s t =
      { hsm := { t.hsm with
          Host :=
            if t.hsm.NextState = StateInspecting ∨ t.hsm.NextState = StateProvisioning then
              setBootMode (transitionWritten x s t) (x.BootMode (transitionWritten x s t))
            else transitionWritten x s t }
        info := { (recordStateEnd t.info t.hsm.Host s (x.Now t.world.clockReads)).1 with
          postSaveCallbacks :=
            (recordStateEnd t.info t.hsm.Host s (x.Now t.world.clockReads)).1.postSaveCallbacks
              ++ [Callback.stateChange s t.hsm.NextState] }
        world := { t.world with clockReads := t.world.clockReads + 1 } } := by
  unfold updateHostStateFrom
  rw [if_pos hne]
  simp only [readClock, updateBootModeStatus_host]
  cases hn : t.hsm.NextState <;> simp [transitionWritten, hn, readClock]

/-- The reconcile context after `recordStateEnd`: only callbacks are added. -/
theorem recordStateEnd_info (info : reconcileInfo) (host : BareMetalHost)
    (s : ProvisioningState) (time : Time) :
    (recordStateEnd info host s time).1.events = info.events ∧
    (recordStateEnd info host s time).1.bmcCredsSecret = info.bmcCredsSecret := by
  unfold recordStateEnd
  split
  · split <;> exact ⟨rfl, rfl⟩
  · exact ⟨rfl, rfl⟩

/-- What the host keeps through the recorder's writes. -/
theorem transitionWritten_frame (x : Externals) (s : ProvisioningState) (t : Tick) :
    (transitionWritten x s t).DeletionTimestamp = t.hsm.Host.DeletionTimestamp ∧
    (transitionWritten x s t).Spec = t.hsm.Host.Spec ∧
    (transitionWritten x s t).Status.ErrorType = t.hsm.Host.Status.ErrorType ∧
    (transitionWritten x s t).Status.OperationalStatus = t.hsm.Host.Status.OperationalStatus ∧
    (transitionWritten x s t).Status.GoodCredentials = t.hsm.Host.Status.GoodCredentials ∧
    (transitionWritten x s t).Status.TriedCredentials = t.hsm.Host.Status.TriedCredentials ∧
    (transitionWritten x s t).Status.Provisioning.State = t.hsm.NextState ∧
    (transitionWritten x s t).Status.Provisioning.BootMode =
      t.hsm.Host.Status.Provisioning.BootMode ∧
    (transitionWritten x s t).Status.Provisioning.ID = t.hsm.Host.Status.Provisioning.ID ∧
    (transitionWritten x s t).Status.Provisioning.Image =
      t.hsm.Host.Status.Provisioning.Image := by
  have hb := recordStateBegin_frame
    (recordStateEnd t.info t.hsm.Host s (x.Now t.world.clockReads)).2
    t.hsm.NextState (x.Now t.world.clockReads)
  have he := recordStateEnd_frame t.info t.hsm.Host s (x.Now t.world.clockReads)
  unfold transitionWritten setProvisioningState
  simp only
  refine ⟨hb.1.trans he.1, hb.2.1.trans he.2.1, hb.2.2.2.1.trans he.2.2.2.1,
    hb.2.2.2.2.1.trans he.2.2.2.2.1, hb.2.2.2.2.2.1.trans he.2.2.2.2.2.1,
    hb.2.2.2.2.2.2.trans he.2.2.2.2.2.2, trivial, ?_, ?_, ?_⟩
  · rw [hb.2.2.1, he.2.2.1]
  · rw [hb.2.2.1, he.2.2.1]
  · rw [hb.2.2.1, he.2.2.1]

/-- What a tick keeps through the transition recorder: the machine but for the
host, the host but for its state, boot mode and operation history, the events,
the secret, the invoked actions and the counters. -/
theorem updateHostStateFrom_frame (x : Externals) (s : ProvisioningState) (t : Tick) :
    (updateHostStateFrom x s t).hsm.NextState = t.hsm.NextState ∧
    (updateHostStateFrom x s t).hsm.Reconciler = t.hsm.Reconciler ∧
    (updateHostStateFrom x s t).hsm.Host.DeletionTimestamp = t.hsm.Host.DeletionTimestamp ∧
    (updateHostStateFrom x s t).hsm.Host.Spec = t.hsm.Host.Spec ∧
    (updateHostStateFrom x s t).hsm.Host.Status.ErrorType = t.hsm.Host.Status.ErrorType ∧
    (updateHostStateFrom x s t).hsm.Host.Status.OperationalStatus =
      t.hsm.Host.Status.OperationalStatus ∧
    (updateHostStateFrom x s t).hsm.Host.Status.GoodCredentials =
      t.hsm.Host.Status.GoodCredentials ∧
    (updateHostStateFrom x s t).hsm.Host.Status.TriedCredentials =
      t.hsm.Host.Status.TriedCredentials ∧
    (updateHostStateFrom x s t).info.events = t.info.events ∧
    (updateHostStateFrom x s t).info.bmcCredsSecret = t.info.bmcCredsSecret ∧
    (updateHostStateFrom x s t).world.hostRegistrationRequired =
      t.world.hostRegistrationRequired ∧
    (updateHostStateFrom x s t).world.hostUnmanaged = t.world.hostUnmanaged := by
  by_cases hne : t.hsm.NextState ≠ s
  · have hf := transitionWritten_frame x s t
    have hi := recordStateEnd_info t.info t.hsm.Host s (x.Now t.world.clockReads)
    have hH : ∀ (c : Prop) [Decidable c] (b : BootMode),
        (if c then setBootMode (transitionWritten x s t) b
          else transitionWritten x s t).DeletionTimestamp = t.hsm.Host.DeletionTimestamp ∧
        (if c then setBootMode (transitionWritten x s t) b
          else transitionWritten x s t).Spec = t.hsm.Host.Spec ∧
        (if c then setBootMode (transitionWritten x s t) b
          else transitionWritten x s t).Status.ErrorType = t.hsm.Host.Status.ErrorType ∧
        (if c then setBootMode (transitionWritten x s t) b
          else transitionWritten x s t).Status.OperationalStatus =
            t.hsm.Host.Status.OperationalStatus ∧
        (if c then setBootMode (transitionWritten x s t) b
          else transitionWritten x s t).Status.GoodCredentials =
            t.hsm.Host.Status.GoodCredentials ∧
        (if c then setBootMode (transitionWritten x s t) b
          else transitionWritten x s t).Status.TriedCredentials =
            t.hsm.Host.Status.TriedCredentials := by
      intro c _ b
      split <;>
        exact ⟨hf.1, hf.2.1, hf.2.2.1, hf.2.2.2.1, hf.2.2.2.2.1, hf.2.2.2.2.2.1⟩
    obtain ⟨h1, h2, h3, h4, h5, h6⟩ := hH
      (t.hsm.NextState = StateInspecting ∨ t.hsm.NextState = StateProvisioning)
      (x.BootMode (transitionWritten x s t))
    rw [updateHostStateFrom_changed x s t hne]
    exact ⟨rfl, rfl, h1, h2, h3, h4, h5, h6, hi.1, hi.2, rfl, rfl⟩
  · simp only [ne_eq, Decidable.not_not] at hne
    rw [updateHostStateFrom_same x s t hne]
    simp

/-! ## The handler path -/

@[simp] theorem freshTick_host (host : BareMetalHost) (reconciler : BareMetalHostReconciler)
    (info : reconcileInfo) (world : World) :
    (freshTick host reconciler info world).hsm.Host = host := rfl

@[simp] theorem freshTick_next (host : BareMetalHost) (reconciler : BareMetalHostReconciler)
    (info : reconcileInfo) (world : World) :
    (freshTick host reconciler info world).hsm.NextState = host.Status.Provisioning.State := rfl

@[simp] theorem freshTick_reconciler (host : BareMetalHost)
    (reconciler : BareMetalHostReconciler) (info : reconcileInfo) (world : World) :
    (freshTick host reconciler info world).hsm.Reconciler = reconciler := rfl

@[simp] theorem freshTick_info (host : BareMetalHost) (reconciler : BareMetalHostReconciler)
    (info : reconcileInfo) (world : World) :
    (freshTick host reconciler info world).info = info := rfl

@[simp] theorem freshTick_world (host : BareMetalHost) (reconciler : BareMetalHostReconciler)
    (info : reconcileInfo) (world : World) :
    (freshTick host reconciler info world).world = world := rfl

/-- A tick of the driver, in terms of the fresh tick. -/
theorem reconcile_fresh (x : Externals) (reconciler : BareMetalHostReconciler)
    (host : BareMetalHost) (info : reconcileInfo) (world : World) :
    reconcile x reconciler host info world =
      ((reconcileBody x host.Status.Provisioning.State
          (freshTick host reconciler info world)).1,
        updateHostStateFrom x host.Status.Provisioning.State
          (reconcileBody x host.Status.Provisioning.State
            (freshTick host reconciler info world)).2) :=
  rfl

/-- The handler path: when the delete check declines and registration is
skipped, the body of the tick is the handler of the state. -/
theorem reconcileBody_handler (x : Externals) (reconciler : BareMetalHostReconciler)
    (host : BareMetalHost) (info : reconcileInfo) (world : World) (h : stateHandler)
    (hh : handlers host.Status.Provisioning.State = some h)
    (hcheck : ptrIsZero host.DeletionTimestamp = true ∨
      host.Status.Provisioning.State = StateDeprovisioning ∨
      host.Status.Provisioning.State = StateDeleting)
    (hskip : registrationSkipped (freshTick host reconciler info world)) :
    reconcileBody x host.Status.Provisioning.State (freshTick host reconciler info world) =
      h x (freshTick host reconciler info world) := by
  have hc : checkInitiateDelete (freshTick host reconciler info world).hsm =
      (false, (freshTick host reconciler info world).hsm) := by
    obtain ⟨-, -, hcase⟩ := checkInitiateDelete_spec (freshTick host reconciler info world).hsm
    rcases hcase with ⟨hf, hsame, -⟩ | ⟨hfire, hdel, hentry⟩
    · exact Prod.ext hf hsame
    · exfalso
      simp only [freshTick_host, freshTick_next] at hdel hentry
      rcases hcheck with hz | hd | hd
      · rw [hz] at hdel; cases hdel
      · rw [hd] at hentry; simp [deleteEntry] at hentry
      · rw [hd] at hentry; simp [deleteEntry] at hentry
  rw [reconcileBody_dispatch x _ _ hc hskip, hh]

/-- The state after a tick, with no assumption on the actions: `NextState` when
the body moved it, and otherwise the state in which the body left the host. -/
theorem stateAfter_fresh (x : Externals) (reconciler : BareMetalHostReconciler)
    (host : BareMetalHost) (info : reconcileInfo) (world : World) :
    stateAfter (reconcile x reconciler host info world) =
      if (reconcileBody x host.Status.Provisioning.State
          (freshTick host reconciler info world)).2.hsm.NextState ≠
          host.Status.Provisioning.State
      then (reconcileBody x host.Status.Provisioning.State
          (freshTick host reconciler info world)).2.hsm.NextState
      else (reconcileBody x host.Status.Provisioning.State
          (freshTick host reconciler info world)).2.hsm.Host.Status.Provisioning.State := by
  rw [reconcile_fresh]
  unfold stateAfter
  simp only
  rw [updateHostStateFrom_state]

/-! ## Provisioning and Provisioned -/

/-- The invoked actions after a tick are those after its body. -/
theorem calls_fresh (x : Externals) (reconciler : BareMetalHostReconciler)
    (host : BareMetalHost) (info : reconcileInfo) (world : World) :
    (reconcile x reconciler host info world).2.world.calls =
      (reconcileBody x host.Status.Provisioning.State
        (freshTick host reconciler info world)).2.world.calls := by
  rw [reconcile_fresh]
  exact updateHostStateFrom_calls _ _ _

/-- Good credentials that match the secret skip the registration hook. -/
theorem registrationSkipped_of_good (host : BareMetalHost)
    (reconciler : BareMetalHostReconciler) (info : reconcileInfo) (world : World)
    (hgood : host.Status.GoodCredentials.Match info.bmcCredsSecret = true) :
    registrationSkipped (freshTick host reconciler info world) :=
  Or.inr (Or.inr hgood)

/-- C11: a host in Provisioning or Provisioned, with no deletion requested and
good credentials matching the secret.  When provisioning is cancelled the tick
returns Complete, moves to Deprovisioning and invokes nothing.  Otherwise
Provisioning invokes `Provision`, returns its result and moves to Provisioned
exactly when that result is Complete, while Provisioned invokes
`ManageSteadyState`, returns its result and stays in Provisioned. -/
theorem provisioning_and_provisioned (x : Externals) (reconciler : BareMetalHostReconciler)
    (host : BareMetalHost) (info : reconcileInfo) (world : World)
    (hk : reconciler.KeepsLifecycle)
    (hstate : host.Status.Provisioning.State = StateProvisioning ∨
      host.Status.Provisioning.State = StateProvisioned)
    (hdel : ptrIsZero host.DeletionTimestamp = true)
    (hgood : host.Status.GoodCredentials.Match info.bmcCredsSecret = true) :
    (provisioningCancelled x (newHostStateMachine host reconciler) = true →
      (reconcile x reconciler host info world).1 = actionComplete ∧
      stateAfter (reconcile x reconciler host info world) = StateDeprovisioning ∧
      (reconcile x reconciler host info world).2.world.calls = world.calls) ∧
    (provisioningCancelled x (newHostStateMachine host reconciler) = false →
      host.Status.Provisioning.State = StateProvisioning →
      (reconcile x reconciler host info world).2.world.calls =
        world.calls ++ [ProvisionerAction.Provision] ∧
      (reconcile x reconciler host info world).1 =
        (reconciler.actionProvisioning host info).result ∧
      (stateAfter (reconcile x reconciler host info world) = StateProvisioned ↔
        (reconciler.actionProvisioning host info).result = actionComplete) ∧
      ((reconciler.actionProvisioning host info).result ≠ actionComplete →
        stateAfter (reconcile x reconciler host info world) = StateProvisioning)) ∧
    (provisioningCancelled x (newHostStateMachine host reconciler) = false →
      host.Status.Provisioning.State = StateProvisioned →
      (reconcile x reconciler host info world).2.world.calls =
        world.calls ++ [ProvisionerAction.ManageSteadyState] ∧
      (reconcile x reconciler host info world).1 =
        (reconciler.actionManageSteadyState host info).result ∧
      stateAfter (reconcile x reconciler host info world) = StateProvisioned) := by
  have hskip := registrationSkipped_of_good host reconciler info world hgood
  have hcancel : provisioningCancelled x (freshTick host reconciler info world).hsm =
      provisioningCancelled x (newHostStateMachine host reconciler) := rfl
  have kp := hk.provisioning host info
  have ks := hk.manageSteadyState host info
  refine ⟨fun hc => ?_, fun hc hs => ?_, fun hc hs => ?_⟩
  · rcases hstate with hs | hs
    · have hbody := reconcileBody_handler x reconciler host info world handleProvisioning
        (by rw [hs]; rfl) (Or.inl hdel) hskip
      rw [stateAfter_fresh, calls_fresh, reconcile_fresh, hbody]
      unfold handleProvisioning
      rw [hcancel, hc]
      simp [hs]
    · have hbody := reconcileBody_handler x reconciler host info world handleProvisioned
        (by rw [hs]; rfl) (Or.inl hdel) hskip
      rw [stateAfter_fresh, calls_fresh, reconcile_fresh, hbody]
      unfold handleProvisioned
      rw [hcancel, hc]
      simp [hs]
  · have hbody := reconcileBody_handler x reconciler host info world handleProvisioning
      (by rw [hs]; rfl) (Or.inl hdel) hskip
    rw [stateAfter_fresh, calls_fresh, reconcile_fresh, hbody]
    unfold handleProvisioning
    rw [hcancel, hc]
    simp only [Bool.false_eq_true, if_false, runAction, freshTick_host, freshTick_info,
      freshTick_world, freshTick_reconciler]
    cases hr : (reconciler.actionProvisioning host info).result <;>
      simp [actionResult.isComplete, hs, kp.1, hr]
  · have hbody := reconcileBody_handler x reconciler host info world handleProvisioned
      (by rw [hs]; rfl) (Or.inl hdel) hskip
    rw [stateAfter_fresh, calls_fresh, reconcile_fresh, hbody]
    unfold handleProvisioned
    rw [hcancel, hc]
    simp [runAction, hs, ks.1]

/-- Witness for C11: State = Provisioning, the spec asks for the image at
`http://a` while `http://b` is recorded in the status. -/
theorem provisioning_and_provisioned_witness :
    (reconcile sampleExternals (constReconciler actionContinue)
      (provisioningHost "http://a" "http://b") (sampleInfo "A") World.fresh).1 =
      actionComplete ∧
    stateAfter (reconcile sampleExternals (constReconciler actionContinue)
      (provisioningHost "http://a" "http://b") (sampleInfo "A") World.fresh) =
      StateDeprovisioning ∧
    (reconcile sampleExternals (constReconciler actionContinue)
      (provisioningHost "http://a" "http://b") (sampleInfo "A")
      World.fresh).2.world.calls = World.fresh.calls :=
  (provisioning_and_provisioned sampleExternals (constReconciler actionContinue)
    (provisioningHost "http://a" "http://b") (sampleInfo "A") World.fresh
    (constReconciler_keepsLifecycle _) (by decide) (by decide) (by decide)).1 (by decide)

/-! ## Post-save callbacks -/

/-- The callbacks queued by the transition recorder. -/
theorem updateHostStateFrom_callbacks (x : Externals) (s : ProvisioningState) (t : Tick) :
    (updateHostStateFrom x s t).info.postSaveCallbacks =
      t.info.postSaveCallbacks ++ recorderCallbacks s t := by
  unfold recorderCallbacks
  by_cases hne : t.hsm.NextState ≠ s
  · rw [updateHostStateFrom_changed x s t hne, if_pos hne]
    simp only
    cases hm : OperationMetricForState t.hsm.Host s with
    | none =>
      rw [recordStateEnd_none _ _ _ _ hm]
      simp
    | some m =>
      by_cases hstart : m.Start = 0
      · rw [recordStateEnd_idle _ _ _ _ m hm hstart]
        simp [hstart]
      · rw [recordStateEnd_started _ _ _ _ m hm hstart]
        simp [hstart]
  · rw [if_neg hne]
    simp only [ne_eq, Decidable.not_not] at hne
    rw [updateHostStateFrom_same x s t hne]
    simp

/-- The recorder queues no delete-without-deprovisioning increment. -/
theorem recorderCallbacks_deleteWithoutDeprov (s : ProvisioningState) (t : Tick) :
    (recorderCallbacks s t).count Callback.deleteWithoutDeprov = 0 := by
  unfold recorderCallbacks
  split
  · split
    · split <;> simp
    · simp
  · simp

/-- No callback queued by an action is the delete-without-deprovisioning
increment of the state machine. -/
theorem fromAction_deleteWithoutDeprov (labels : List String) :
    (labels.map Callback.fromAction).count Callback.deleteWithoutDeprov = 0 := by
  induction labels with
  | nil => rfl
  | cons a rest ih => simp [List.count_cons, ih]

/-! ## Deprovisioning -/

/-- C12: a host in Deprovisioning on the handler path (a deletion has been
requested, or the good credentials match the secret).  `Deprovision` is the one
action invoked.  On Complete the state becomes Deleting when a deletion has
been requested and Ready otherwise.  On Failed with a deletion requested the
result is coerced to Complete, the state becomes Deleting and exactly one
delete-without-deprovisioning increment is queued.  On Failed without a
deletion, and on Continue, Delayed or Error, the result is returned as it is,
the state stays Deprovisioning and no such increment is queued. -/
theorem deprovisioning_outcomes (x : Externals) (reconciler : BareMetalHostReconciler)
    (host : BareMetalHost) (info : reconcileInfo) (world : World)
    (hk : Metal3.KeepsLifecycle reconciler.actionDeprovisioning)
    (hstate : host.Status.Provisioning.State = StateDeprovisioning)
    (hpath : ptrIsZero host.DeletionTimestamp = false ∨
      host.Status.GoodCredentials.Match info.bmcCredsSecret = true) :
    (reconcile x reconciler host info world).2.world.calls =
      world.calls ++ [ProvisionerAction.Deprovision] ∧
    ((reconciler.actionDeprovisioning host info).result = actionComplete →
      (reconcile x reconciler host info world).1 = actionComplete ∧
      stateAfter (reconcile x reconciler host info world) =
        (if ptrIsZero host.DeletionTimestamp = false then StateDeleting else StateReady) ∧
      ∃ l, (reconcile x reconciler host info world).2.info.postSaveCallbacks =
          info.postSaveCallbacks ++ l ∧ l.count Callback.deleteWithoutDeprov = 0) ∧
    (∀ kind, (reconciler.actionDeprovisioning host info).result = actionFailed kind →
      ptrIsZero host.DeletionTimestamp = false →
      (reconcile x reconciler host info world).1 = actionComplete ∧
      stateAfter (reconcile x reconciler host info world) = StateDeleting ∧
      ∃ l, (reconcile x reconciler host info world).2.info.postSaveCallbacks =
          info.postSaveCallbacks ++ l ∧ l.count Callback.deleteWithoutDeprov = 1) ∧
    ((reconciler.actionDeprovisioning host info).result ≠ actionComplete →
      (∀ kind, (reconciler.actionDeprovisioning host info).result = actionFailed kind →
        ptrIsZero host.DeletionTimestamp = true) →
      (reconcile x reconciler host info world).1 =
        (reconciler.actionDeprovisioning host info).result ∧
      stateAfter (reconcile x reconciler host info world) = StateDeprovisioning ∧
      ∃ l, (reconcile x reconciler host info world).2.info.postSaveCallbacks =
          info.postSaveCallbacks ++ l ∧ l.count Callback.deleteWithoutDeprov = 0) := by
  have hskip : registrationSkipped (freshTick host reconciler info world) := by
    rcases hpath with h | h
    · exact Or.inr (Or.inl h)
    · exact Or.inr (Or.inr h)
  have hbody := reconcileBody_handler x reconciler host info world handleDeprovisioning
    (by rw [hstate]; rfl) (Or.inr (Or.inl hstate)) hskip
  have kd := hk host info
  have hcb : (reconcile x reconciler host info world).2.info.postSaveCallbacks =
      (handleDeprovisioning x (freshTick host reconciler info world)).2.info.postSaveCallbacks
        ++ recorderCallbacks host.Status.Provisioning.State
          (handleDeprovisioning x (freshTick host reconciler info world)).2 := by
    rw [reconcile_fresh, hbody]
    exact updateHostStateFrom_callbacks _ _ _
  have hres : (reconcile x reconciler host info world).1 =
      (handleDeprovisioning x (freshTick host reconciler info world)).1 := by
    rw [reconcile_fresh, hbody]
  rw [stateAfter_fresh, calls_fresh, hcb, hres, hbody]
  generalize hrc : recorderCallbacks host.Status.Provisioning.State
    (handleDeprovisioning x (freshTick host reconciler info world)).2 = rc
  have hrc0 : rc.count Callback.deleteWithoutDeprov = 0 := by
    rw [← hrc]; exact recorderCallbacks_deleteWithoutDeprov _ _
  have hfa := fromAction_deleteWithoutDeprov (reconciler.actionDeprovisioning host info).callbacks
  unfold handleDeprovisioning
  simp only [runAction, freshTick_host, freshTick_info, freshTick_world, freshTick_reconciler]
  cases hr : (reconciler.actionDeprovisioning host info).result <;>
    cases hz : ptrIsZero host.DeletionTimestamp <;>
    simp [kd.1, kd.2, hz, hstate, List.count_append, hfa, hrc0, List.append_assoc]

/-- Witness for C12: deprovisioning gives up while the host is being deleted;
the result is coerced to Complete and the host moves to Deleting. -/
theorem deprovisioning_outcomes_witness :
    (reconcile sampleExternals (constReconciler (actionFailed ErrorType.ProvisioningError))
      (deletedHost StateDeprovisioning) (sampleInfo "A") World.fresh).1 = actionComplete ∧
    stateAfter (reconcile sampleExternals
      (constReconciler (actionFailed ErrorType.ProvisioningError))
      (deletedHost StateDeprovisioning) (sampleInfo "A") World.fresh) = StateDeleting ∧
    ∃ l, (reconcile sampleExternals (constReconciler (actionFailed ErrorType.ProvisioningError))
        (deletedHost StateDeprovisioning) (sampleInfo "A") World.fresh).2.info.postSaveCallbacks =
        (sampleInfo "A").postSaveCallbacks ++ l ∧ l.count Callback.deleteWithoutDeprov = 1 :=
  (deprovisioning_outcomes sampleExternals
    (constReconciler (actionFailed ErrorType.ProvisioningError))
    (deletedHost StateDeprovisioning) (sampleInfo "A") World.fresh
    (fun _ _ => ⟨rfl, rfl⟩) (by decide) (Or.inl (by decide))).2.2.1
    ErrorType.ProvisioningError rfl (by decide)

/-! ## Discovery -/

/-- C13: a host in state None with no deletion requested.  The tick returns
Complete and invokes no provisioner action, whatever the credentials.  With BMC
details the state becomes Registering, no event is published and the
operational status is unchanged; without them the state becomes Unmanaged, the
operational status becomes Discovered and exactly one event, "Discovered", is
published. -/
theorem none_state_discovery (x : Externals) (reconciler : BareMetalHostReconciler)
    (host : BareMetalHost) (info : reconcileInfo) (world : World)
    (hstate : host.Status.Provisioning.State = StateNone)
    (hdel : ptrIsZero host.DeletionTimestamp = true) :
    (reconcile x reconciler host info world).1 = actionComplete ∧
    (reconcile x reconciler host info world).2.world.calls = world.calls ∧
    (x.HasBMCDetails host = true →
      stateAfter (reconcile x reconciler host info world) = StateRegistering ∧
      (reconcile x reconciler host info world).2.info.events = info.events ∧
      (reconcile x reconciler host info world).2.hsm.Host.Status.OperationalStatus =
        host.Status.OperationalStatus ∧
      (reconcile x reconciler host info world).2.world.hostUnmanaged = world.hostUnmanaged) ∧
    (x.HasBMCDetails host = false →
      stateAfter (reconcile x reconciler host info world) = StateUnmanaged ∧
      (reconcile x reconciler host info world).2.info.events =
        info.events ++
          [{ reason := "Discovered", message := "Discovered host with no BMC details" }] ∧
      (reconcile x reconciler host info world).2.hsm.Host.Status.OperationalStatus =
        OperationalStatus.OperationalStatusDiscovered ∧
      (reconcile x reconciler host info world).2.world.hostUnmanaged =
        world.hostUnmanaged + 1) := by
  have hskip : registrationSkipped (freshTick host reconciler info world) :=
    Or.inl (Or.inl hstate)
  have hbody := reconcileBody_handler x reconciler host info world handleNone
    (by rw [hstate]; rfl) (Or.inl hdel) hskip
  have hfr := updateHostStateFrom_frame x host.Status.Provisioning.State
    (handleNone x (freshTick host reconciler info world)).2
  have hres : (reconcile x reconciler host info world).1 =
      (handleNone x (freshTick host reconciler info world)).1 := by
    rw [reconcile_fresh, hbody]
  have hev : (reconcile x reconciler host info world).2.info.events =
      (handleNone x (freshTick host reconciler info world)).2.info.events := by
    rw [reconcile_fresh, hbody]; exact hfr.2.2.2.2.2.2.2.2.1
  have hop : (reconcile x reconciler host info world).2.hsm.Host.Status.OperationalStatus =
      (handleNone x (freshTick host reconciler info world)).2.hsm.Host.Status.OperationalStatus := by
    rw [reconcile_fresh, hbody]; exact hfr.2.2.2.2.2.1
  have hun : (reconcile x reconciler host info world).2.world.hostUnmanaged =
      (handleNone x (freshTick host reconciler info world)).2.world.hostUnmanaged := by
    rw [reconcile_fresh, hbody]; exact hfr.2.2.2.2.2.2.2.2.2.2.2
  rw [stateAfter_fresh, calls_fresh, hres, hev, hop, hun, hbody]
  unfold handleNone
  simp only [freshTick_host, freshTick_info, freshTick_world]
  cases hb : x.HasBMCDetails host <;> simp [hstate, SetOperationalStatus]

/-- Witness for C13: a fresh host without BMC details is discovered. -/
theorem none_state_discovery_witness :
    stateAfter (reconcile sampleExternals (constReconciler actionContinue) discoveredHost
      (sampleInfo "A") World.fresh) = StateUnmanaged ∧
    (reconcile sampleExternals (constReconciler actionContinue) discoveredHost
      (sampleInfo "A") World.fresh).2.info.events =
      (sampleInfo "A").events ++
        [{ reason := "Discovered", message := "Discovered host with no BMC details" }] ∧
    (reconcile sampleExternals (constReconciler actionContinue) discoveredHost
      (sampleInfo "A") World.fresh).2.hsm.Host.Status.OperationalStatus =
      OperationalStatus.OperationalStatusDiscovered ∧
    (reconcile sampleExternals (constReconciler actionContinue) discoveredHost
      (sampleInfo "A") World.fresh).2.world.hostUnmanaged = World.fresh.hostUnmanaged + 1 :=
  (none_state_discovery sampleExternals (constReconciler actionContinue) discoveredHost
    (sampleInfo "A") World.fresh (by decide) (by decide)).2.2.2 (by decide)

/-! ## The handlers of Unmanaged to Ready -/

/-- C14: on the handler path (no deletion requested; good credentials matching
the secret, except in Unmanaged) the handlers of Unmanaged, Registering,
Inspecting, MatchProfile, ExternallyProvisioned, Ready and Available follow the
state table: the tick invokes exactly the action of the table, returns its
result (Complete when there is none), ends in the state the table gives for
that result, and in Registering the error is cleared. -/
theorem handlers_follow_table (x : Externals) (reconciler : BareMetalHostReconciler)
    (host : BareMetalHost) (info : reconcileInfo) (world : World)
    (hk : reconciler.KeepsLifecycle)
    (hearly : earlyState host.Status.Provisioning.State = true)
    (hdel : ptrIsZero host.DeletionTimestamp = true)
    (hpath : host.Status.Provisioning.State = StateUnmanaged ∨
      host.Status.GoodCredentials.Match info.bmcCredsSecret = true) :
    (reconcile x reconciler host info world).2.world.calls =
      world.calls ++ (tableAction host host.Status.Provisioning.State).toList ∧
    (reconcile x reconciler host info world).1 =
      tableResult reconciler host info host.Status.Provisioning.State ∧
    stateAfter (reconcile x reconciler host info world) =
      tableNext x host (tableResult reconciler host info host.Status.Provisioning.State)
        host.Status.Provisioning.State ∧
    (host.Status.Provisioning.State = StateRegistering →
      (reconcile x reconciler host info world).2.hsm.Host.Status.ErrorType =
        ErrorType.NoError) := by
  have hskip : registrationSkipped (freshTick host reconciler info world) := by
    rcases hpath with h | h
    · exact Or.inl (Or.inr h)
    · exact Or.inr (Or.inr h)
  obtain ⟨h, hh⟩ : ∃ h, handlers host.Status.Provisioning.State = some h := by
    cases hs : host.Status.Provisioning.State <;> simp [hs, earlyState, handlers] at hearly ⊢
  have hbody := reconcileBody_handler x reconciler host info world h hh (Or.inl hdel) hskip
  have hfr := updateHostStateFrom_frame x host.Status.Provisioning.State
    (h x (freshTick host reconciler info world)).2
  have hres : (reconcile x reconciler host info world).1 =
      (h x (freshTick host reconciler info world)).1 := by
    rw [reconcile_fresh, hbody]
  have herr : (reconcile x reconciler host info world).2.hsm.Host.Status.ErrorType =
      (h x (freshTick host reconciler info world)).2.hsm.Host.Status.ErrorType := by
    rw [reconcile_fresh, hbody]; exact hfr.2.2.2.2.1
  have k1 := hk.unmanaged host info
  have k2 := hk.inspecting host info
  have k3 := hk.matchProfile host info
  have k4 := hk.manageReady host info
  have k5 := hk.manageSteadyState host info
  rw [stateAfter_fresh, calls_fresh, hres, herr, hbody]
  cases hs : host.Status.Provisioning.State <;> rw [hs] at hh hearly <;>
    simp only [earlyState, Bool.false_eq_true] at hearly <;>
    simp only [handlers, Option.some.injEq] at hh <;> subst hh
  case StateUnmanaged =>
    simp only [handleUnmanaged, runAction, freshTick_host, freshTick_next, freshTick_info, freshTick_world,
      freshTick_reconciler, tableAction, tableResult, tableNext,
      BareMetalHostReconciler.actionFor]
    by_cases hc : (reconciler.actionUnmanaged host info).result = actionComplete <;>
      simp [isComplete_iff, hc, k1.1, hs]
  case StateRegistering =>
    simp only [handleRegistering, freshTick_host, freshTick_next, freshTick_info, freshTick_world,
      tableAction, tableResult, tableNext]
    by_cases he : host.Spec.ExternallyProvisioned = true <;> simp [ClearError, he]
  case StateInspecting =>
    simp only [handleInspecting, runAction, freshTick_host, freshTick_next, freshTick_info, freshTick_world,
      freshTick_reconciler, tableAction, tableResult, tableNext,
      BareMetalHostReconciler.actionFor]
    by_cases hc : (reconciler.actionInspecting host info).result = actionComplete <;>
      simp [isComplete_iff, hc, k2.1, hs]
  case StateMatchProfile =>
    simp only [handleMatchProfile, runAction, freshTick_host, freshTick_next, freshTick_info, freshTick_world,
      freshTick_reconciler, tableAction, tableResult, tableNext,
      BareMetalHostReconciler.actionFor]
    by_cases hc : (reconciler.actionMatchProfile host info).result = actionComplete <;>
      simp [isComplete_iff, hc, k3.1, hs]
  case StateExternallyProvisioned =>
    simp only [handleExternallyProvisioned, runAction, freshTick_host, freshTick_next, freshTick_info,
      freshTick_world, freshTick_reconciler, tableAction, tableResult, tableNext,
      BareMetalHostReconciler.actionFor]
    by_cases he : host.Spec.ExternallyProvisioned = true
    · simp [he, k5.1, hs]
    · by_cases hi : x.NeedsHardwareInspection host = true <;>
        by_cases hp : x.NeedsHardwareProfile host = true <;> simp [he, hi, hp]
  case StateReady =>
    simp only [handleReady, runAction, freshTick_host, freshTick_next, freshTick_info, freshTick_world,
      freshTick_reconciler, tableAction, tableResult, tableNext,
      BareMetalHostReconciler.actionFor]
    by_cases he : host.Spec.ExternallyProvisioned = true
    · simp [he]
    · by_cases hc : (reconciler.actionManageReady host info).result = actionComplete <;>
        simp [isComplete_iff, he, hc, k4.1, hs]
  case StateAvailable =>
    simp only [handleReady, runAction, freshTick_host, freshTick_next, freshTick_info, freshTick_world,
      freshTick_reconciler, tableAction, tableResult, tableNext,
      BareMetalHostReconciler.actionFor]
    by_cases he : host.Spec.ExternallyProvisioned = true
    · simp [he]
    · by_cases hc : (reconciler.actionManageReady host info).result = actionComplete <;>
        simp [isComplete_iff, he, hc, k4.1, hs]

/-- Witness for C14: a Registering host that has registered moves to
Inspecting with its error cleared. -/
theorem handlers_follow_table_witness :
    (reconcile sampleExternals (constReconciler actionContinue)
      (registeredHost StateRegistering) (sampleInfo "A") World.fresh).2.world.calls = [] ∧
    (reconcile sampleExternals (constReconciler actionContinue)
      (registeredHost StateRegistering) (sampleInfo "A") World.fresh).1 = actionComplete ∧
    stateAfter (reconcile sampleExternals (constReconciler actionContinue)
      (registeredHost StateRegistering) (sampleInfo "A") World.fresh) = StateInspecting ∧
    ((registeredHost StateRegistering).Status.Provisioning.State = StateRegistering →
      (reconcile sampleExternals (constReconciler actionContinue)
        (registeredHost StateRegistering) (sampleInfo "A")
        World.fresh).2.hsm.Host.Status.ErrorType = ErrorType.NoError) :=
  handlers_follow_table sampleExternals (constReconciler actionContinue)
    (registeredHost StateRegistering) (sampleInfo "A") World.fresh
    (constReconciler_keepsLifecycle _) (by decide) (by decide) (Or.inr (by decide))

/-! ## Leaving a state -/

/-- The sample actions change nothing, so they keep the operation history. -/
theorem constReconciler_keepsHistory (result : actionResult) :
    (constReconciler result).KeepsHistory := by
  intro action host info
  cases action <;> rfl

theorem fromHandler_map_fromAction (labels : List String) :
    ∀ c ∈ labels.map Callback.fromAction, c.fromHandler = true := by
  intro c hc
  simp only [List.mem_map] at hc
  obtain ⟨label, -, rfl⟩ := hc
  rfl

/-- A list of handler callbacks holds no duration observation and no
state-change increment. -/
theorem count_of_fromHandler (l : List Callback) (h : ∀ c ∈ l, c.fromHandler = true) :
    (∀ s, l.count (Callback.observeStateTime s) = 0) ∧
    (∀ s s', l.count (Callback.stateChange s s') = 0) := by
  constructor
  · intro s
    rw [List.count_eq_zero]
    intro hmem
    have := h _ hmem
    simp [Callback.fromHandler] at this
  · intro s s'
    rw [List.count_eq_zero]
    intro hmem
    have := h _ hmem
    simp [Callback.fromHandler] at this

/-- A state handler does not read the clock, leaves the operation history
alone when the actions do, and queues only handler callbacks. -/
theorem handler_quiet (x : Externals) (t : Tick) (s : ProvisioningState) (h : stateHandler)
    (hh : handlers s = some h) (hhist : t.hsm.Reconciler.KeepsHistory) :
    (h x t).2.world.clockReads = t.world.clockReads ∧
    (h x t).2.hsm.Host.Status.OperationHistory = t.hsm.Host.Status.OperationHistory ∧
    ∃ l, (h x t).2.info.postSaveCallbacks = t.info.postSaveCallbacks ++ l ∧
      ∀ c ∈ l, c.fromHandler = true := by
  have k1 := hhist ProvisionerAction.Unmanaged t.hsm.Host t.info
  have k2 := hhist ProvisionerAction.Inspect t.hsm.Host t.info
  have k3 := hhist ProvisionerAction.MatchProfile t.hsm.Host t.info
  have k4 := hhist ProvisionerAction.ManageReady t.hsm.Host t.info
  have k5 := hhist ProvisionerAction.ManageSteadyState t.hsm.Host t.info
  have k6 := hhist ProvisionerAction.Provision t.hsm.Host t.info
  have k7 := hhist ProvisionerAction.Deprovision t.hsm.Host t.info
  have k8 := hhist ProvisionerAction.Delete t.hsm.Host t.info
  simp only [BareMetalHostReconciler.actionFor] at k1 k2 k3 k4 k5 k6 k7 k8
  have hnil : ∀ c ∈ ([] : List Callback), c.fromHandler = true := by simp
  have hmap := fromHandler_map_fromAction
  cases s <;> simp only [handlers, Option.some.injEq, reduceCtorEq] at hh <;> subst hh <;>
    simp only [handleNone, handleUnmanaged, handleRegistering, handleInspecting,
      handleMatchProfile, handleExternallyProvisioned, handleReady, handleProvisioning,
      handleProvisioned, handleDeprovisioning, handleDeleting, runAction] <;>
    (repeat' split) <;>
    first
      | exact ⟨rfl, rfl, [], (List.append_nil _).symm, hnil⟩
      | exact ⟨rfl, by assumption, _, rfl, hmap _⟩
      | exact ⟨trivial, by assumption, _, rfl, hmap _⟩
      | (refine ⟨rfl, by assumption, _, List.append_assoc _ _ _, ?_⟩
         intro c hc
         rcases List.mem_append.mp hc with h1 | h1
         · exact hmap _ c h1
         · simp only [List.mem_singleton] at h1
           rw [h1]; rfl)

/-- A tick whose body moves `NextState`: the body has not read the clock, has
left the operation history alone (when the actions do) and has queued only
handler callbacks. -/
theorem reconcileBody_exit (x : Externals) (t : Tick) (s : ProvisioningState)
    (hs : t.hsm.NextState = s) (hhist : t.hsm.Reconciler.KeepsHistory)
    (hexit : (reconcileBody x s t).2.hsm.NextState ≠ s) :
    (reconcileBody x s t).2.world.clockReads = t.world.clockReads ∧
    (reconcileBody x s t).2.hsm.Host.Status.OperationHistory =
      t.hsm.Host.Status.OperationHistory ∧
    ∃ l, (reconcileBody x s t).2.info.postSaveCallbacks = t.info.postSaveCallbacks ++ l ∧
      ∀ c ∈ l, c.fromHandler = true := by
  have hnil : ∀ c ∈ ([] : List Callback), c.fromHandler = true := by simp
  obtain ⟨hhost, -, hcase⟩ := checkInitiateDelete_spec t.hsm
  rcases hcase with ⟨hf, hsame, -⟩ | ⟨hfire, -, -⟩
  · have hcheck : checkInitiateDelete t.hsm = (false, t.hsm) := Prod.ext hf hsame
    by_cases hskip : registrationSkipped t
    · rw [reconcileBody_dispatch x t s hcheck hskip] at hexit ⊢
      cases hh : handlers s with
      | none => exact ⟨rfl, rfl, [], (List.append_nil _).symm, hnil⟩
      | some h => exact handler_quiet x t s h hh hhist
    · exfalso
      have hz : ptrIsZero t.hsm.Host.DeletionTimestamp = true := by
        cases hp : ptrIsZero t.hsm.Host.DeletionTimestamp
        · exact absurd (Or.inr (Or.inl hp)) hskip
        · rfl
      by_cases hretry : t.hsm.Host.Status.ErrorType = ErrorType.RegistrationError ∧
          t.hsm.Host.Status.TriedCredentials.Match t.info.bmcCredsSecret = true
      · have hfast := ensureRegistered_fast x t hskip hretry.1 hretry.2
        rw [reconcileBody_registration x t s _ hz (by rw [hfast]), hfast] at hexit
        exact hexit hs
      · obtain ⟨hres, -, hnext, -, -⟩ := ensureRegistered_register x t hskip hretry
        rw [reconcileBody_registration x t s _ hz hres] at hexit
        exact hexit (hnext.trans hs)
  · unfold reconcileBody
    simp only [hfire, if_true]
    exact ⟨trivial, by rw [hhost], [], (List.append_nil _).symm, hnil⟩

/-- The transition recorder writes the operation history only through
`recordStateEnd` and `recordStateBegin`. -/
theorem updateHostStateFrom_metric (x : Externals) (s s' : ProvisioningState) (t : Tick)
    (hne : t.hsm.NextState ≠ s) :
    OperationMetricForState (updateHostStateFrom x s t).hsm.Host s' =
      OperationMetricForState
        (recordStateBegin
          (recordStateEnd t.info t.hsm.Host s (x.Now t.world.clockReads)).2
          t.hsm.NextState (x.Now t.world.clockReads)) s' := by
  rw [updateHostStateFrom_changed x s t hne]
  simp only
  split <;> rfl

/-- The metric of a state depends on the operation history alone. -/
theorem metric_congr (h h' : BareMetalHost) (s : ProvisioningState)
    (heq : h'.Status.OperationHistory = h.Status.OperationHistory) :
    OperationMetricForState h' s = OperationMetricForState h s := by
  unfold OperationMetricForState
  rw [heq]

/-- The recorder, leaving a state whose interval was started: the interval
keeps its start and ends at the time the recorder reads. -/
theorem updateHostStateFrom_ends (x : Externals) (s : ProvisioningState) (t : Tick)
    (m : OperationMetric) (hne : t.hsm.NextState ≠ s)
    (hm : OperationMetricForState t.hsm.Host s = some m) (hstart : m.Start ≠ 0) :
    OperationMetricForState (updateHostStateFrom x s t).hsm.Host s =
      some { Start := m.Start, End := x.Now t.world.clockReads } := by
  rw [updateHostStateFrom_metric x s s t hne,
    recordStateBegin_other _ _ _ _ (fun h => hne h.symm),
    recordStateEnd_started _ _ _ _ m hm hstart]
  exact metric_set_same _ _ _ m hm

/-- C16, as stated, fails: the end of the interval is the time read when the
state is left, whatever the recorded start.  A host that left Inspecting at
time 7 with an interval started at time 100 gets an end before its start. -/
theorem interval_end_before_start :
    OperationMetricForState (inspectingSince 100) StateInspecting =
      some { Start := 100, End := 0 } ∧
    stateAfter (reconcile sampleExternals (constReconciler actionComplete)
      (inspectingSince 100) (sampleInfo "A") World.fresh) = StateMatchProfile ∧
    OperationMetricForState
      (reconcile sampleExternals (constReconciler actionComplete)
        (inspectingSince 100) (sampleInfo "A") World.fresh).2.hsm.Host StateInspecting =
      some { Start := 100, End := 7 } ∧
    ¬ ((100 : Time) ≤ 7) :=
  ⟨by decide, by decide, by decide, by decide⟩

/-- C16, amended: in every tick in which the machine leaves a state whose
interval has a non-zero start, the interval keeps its start and its end is set
to the time read at the transition, so that the end is not before the start
whenever that reading is not before the start; the state written is the new
one, and exactly one duration observation for the old state is queued. -/
theorem exit_stamps_interval (x : Externals) (reconciler : BareMetalHostReconciler)
    (host : BareMetalHost) (info : reconcileInfo) (world : World) (m : OperationMetric)
    (hhist : reconciler.KeepsHistory)
    (hm : OperationMetricForState host host.Status.Provisioning.State = some m)
    (hstart : m.Start ≠ 0)
    (hexit : (reconcile x reconciler host info world).2.hsm.NextState ≠
      host.Status.Provisioning.State) :
    stateAfter (reconcile x reconciler host info world) =
      (reconcile x reconciler host info world).2.hsm.NextState ∧
    OperationMetricForState (reconcile x reconciler host info world).2.hsm.Host
        host.Status.Provisioning.State =
      some { Start := m.Start, End := x.Now world.clockReads } ∧
    (m.Start ≤ x.Now world.clockReads →
      ∀ m', OperationMetricForState (reconcile x reconciler host info world).2.hsm.Host
          host.Status.Provisioning.State = some m' → m'.Start ≤ m'.End ∧ m'.End ≠ 0) ∧
    ∃ l, (reconcile x reconciler host info world).2.info.postSaveCallbacks =
        info.postSaveCallbacks ++ l ∧
      l.count (Callback.observeStateTime host.Status.Provisioning.State) = 1 := by
  have hfr := updateHostStateFrom_frame x host.Status.Provisioning.State
    (reconcileBody x host.Status.Provisioning.State (freshTick host reconciler info world)).2
  have hexit' : (reconcileBody x host.Status.Provisioning.State
      (freshTick host reconciler info world)).2.hsm.NextState ≠
      host.Status.Provisioning.State := by
    rw [reconcile_fresh] at hexit
    rw [← hfr.1]
    exact hexit
  obtain ⟨hclock, hist, l, hl, hquiet⟩ := reconcileBody_exit x
    (freshTick host reconciler info world) host.Status.Provisioning.State rfl hhist hexit'
  have hm' : OperationMetricForState (reconcileBody x host.Status.Provisioning.State
      (freshTick host reconciler info world)).2.hsm.Host host.Status.Provisioning.State =
      some m := by
    rw [metric_congr _ _ _ hist]
    exact hm
  have hend := updateHostStateFrom_ends x host.Status.Provisioning.State _ m hexit' hm' hstart
  rw [hclock] at hend
  have hmetric : OperationMetricForState (reconcile x reconciler host info world).2.hsm.Host
      host.Status.Provisioning.State =
      some { Start := m.Start, End := x.Now world.clockReads } := by
    rw [reconcile_fresh]
    exact hend
  refine ⟨?_, hmetric, fun hle m' hm2 => ?_, ?_⟩
  · rw [stateAfter_fresh, if_pos hexit', reconcile_fresh]
    exact hfr.1.symm
  · rw [hmetric] at hm2
    cases hm2
    refine ⟨hle, fun h0 => hstart ?_⟩
    have h1 : x.Now world.clockReads = 0 := h0
    rw [h1] at hle
    exact Nat.eq_zero_of_le_zero hle
  · refine ⟨l ++ recorderCallbacks host.Status.Provisioning.State
      (reconcileBody x host.Status.Provisioning.State
        (freshTick host reconciler info world)).2, ?_, ?_⟩
    · rw [reconcile_fresh]
      simp only
      rw [updateHostStateFrom_callbacks, hl, List.append_assoc]
      rfl
    · rw [List.count_append, (count_of_fromHandler l hquiet).1]
      unfold recorderCallbacks
      rw [if_pos hexit', hm']
      simp [hstart]

/-- Witness for C16, amended: a host that has been inspecting since time 3
leaves Inspecting at time 7. -/
theorem exit_stamps_interval_witness :
    OperationMetricForState
      (reconcile sampleExternals (constReconciler actionComplete)
        (inspectingSince 3) (sampleInfo "A") World.fresh).2.hsm.Host
      (inspectingSince 3).Status.Provisioning.State =
      some { Start := 3, End := sampleExternals.Now World.fresh.clockReads } :=
  (exit_stamps_interval sampleExternals (constReconciler actionComplete)
    (inspectingSince 3) (sampleInfo "A") World.fresh { Start := 3, End := 0 }
    (constReconciler_keepsHistory _) (by decide) (by decide) (by decide)).2.1

/-! ## Two reconciles in a row -/

/-- A tick keeps the deletion timestamp of the host when the actions do. -/
theorem reconcile_deletionTimestamp (x : Externals) (reconciler : BareMetalHostReconciler)
    (host : BareMetalHost) (info : reconcileInfo) (world : World)
    (hk : reconciler.KeepsLifecycle) :
    (reconcile x reconciler host info world).2.hsm.Host.DeletionTimestamp =
      host.DeletionTimestamp := by
  have hstep := reconcileBody_step x (freshTick host reconciler info world)
    host.Status.Provisioning.State rfl hk
  rw [reconcile_fresh]
  exact (updateHostStateFrom_frame _ _ _).2.2.1.trans hstep.1.2.1

/-- C17, as stated, fails.  A Registering host that has registered completes
Registering → Inspecting on the first reconcile (so the result is neither
Continue nor Delayed) and Inspecting → MatchProfile on the second, with
actions that always return Complete; and a host on the credential-failure fast
path gets Failed on both reconciles, with no transition at all. -/
theorem second_reconcile_moves_on :
    (reconcile sampleExternals (constReconciler actionComplete)
      (registeredHost StateRegistering) (sampleInfo "A") World.fresh).1 = actionComplete ∧
    stateAfter (reconcile sampleExternals (constReconciler actionComplete)
      (registeredHost StateRegistering) (sampleInfo "A") World.fresh) = StateInspecting ∧
    stateAfter (reconcileAgain sampleExternals (constReconciler actionComplete)
      (registeredHost StateRegistering) (sampleInfo "A") World.fresh) = StateMatchProfile ∧
    (reconcile sampleExternals (constReconciler actionComplete)
      (failedRegistrationHost StateInspecting "A") (sampleInfo "A") World.fresh).1 =
      actionFailed ErrorType.RegistrationError ∧
    (reconcileAgain sampleExternals (constReconciler actionComplete)
      (failedRegistrationHost StateInspecting "A") (sampleInfo "A") World.fresh).1 =
      actionFailed ErrorType.RegistrationError ∧
    stateAfter (reconcileAgain sampleExternals (constReconciler actionComplete)
      (failedRegistrationHost StateInspecting "A") (sampleInfo "A") World.fresh) =
      StateInspecting :=
  ⟨by decide, by decide, by decide, by decide, by decide, by decide⟩

/-- C17, amended: of two reconciles in a row with no external change, each one
that returns a result other than Complete (Continue, Delayed, Failed or Error)
changes no state, so two such reconciles leave the state where it was; a first
reconcile that changes the state has returned Complete, and the second then
starts from the new state: it leaves that state alone or returns Complete and
makes one move permitted from it. -/
theorem reconcile_twice (x : Externals) (reconciler : BareMetalHostReconciler)
    (host : BareMetalHost) (info : reconcileInfo) (world : World)
    (hk : reconciler.KeepsLifecycle) :
    ((reconcile x reconciler host info world).1 ≠ actionComplete →
      stateAfter (reconcile x reconciler host info world) = host.Status.Provisioning.State) ∧
    ((reconcileAgain x reconciler host info world).1 ≠ actionComplete →
      stateAfter (reconcileAgain x reconciler host info world) =
        stateAfter (reconcile x reconciler host info world)) ∧
    ((reconcile x reconciler host info world).1 ≠ actionComplete →
      (reconcileAgain x reconciler host info world).1 ≠ actionComplete →
      stateAfter (reconcileAgain x reconciler host info world) =
        host.Status.Provisioning.State) ∧
    (stateAfter (reconcile x reconciler host info world) ≠ host.Status.Provisioning.State →
      (reconcile x reconciler host info world).1 = actionComplete) ∧
    (stateAfter (reconcileAgain x reconciler host info world) =
        stateAfter (reconcile x reconciler host info world) ∨
      ((reconcileAgain x reconciler host info world).1 = actionComplete ∧
        mayMove (ptrIsZero host.DeletionTimestamp)
          (stateAfter (reconcile x reconciler host info world))
          (stateAfter (reconcileAgain x reconciler host info world)) = true)) := by
  have h1 := reconcile_step x reconciler host info world hk
  have h2 := reconcile_step x reconciler (reconcile x reconciler host info world).2.hsm.Host
    info (reconcile x reconciler host info world).2.world hk
  rw [reconcile_deletionTimestamp x reconciler host info world hk] at h2
  have hfirst : (reconcile x reconciler host info world).1 ≠ actionComplete →
      stateAfter (reconcile x reconciler host info world) =
        host.Status.Provisioning.State := by
    intro hne
    rcases h1 with h | ⟨hc, -⟩
    · exact h
    · exact absurd hc hne
  have hsecond : (reconcileAgain x reconciler host info world).1 ≠ actionComplete →
      stateAfter (reconcileAgain x reconciler host info world) =
        stateAfter (reconcile x reconciler host info world) := by
    intro hne
    rcases h2 with h | ⟨hc, -⟩
    · exact h
    · exact absurd hc hne
  refine ⟨hfirst, hsecond, fun ha hb => (hsecond hb).trans (hfirst ha), fun hmove => ?_, h2⟩
  rcases h1 with h | ⟨hc, -⟩
  · exact absurd h hmove
  · exact hc

/-- Witness for C17, amended: provisioning still in progress on both
reconciles. -/
theorem reconcile_twice_witness :
    (constReconciler actionContinue).KeepsLifecycle ∧
    stateAfter (reconcileAgain sampleExternals (constReconciler actionContinue)
      (provisioningHost "http://a" "") (sampleInfo "A") World.fresh) =
      (provisioningHost "http://a" "").Status.Provisioning.State :=
  ⟨constReconciler_keepsLifecycle _,
    (reconcile_twice sampleExternals (constReconciler actionContinue)
      (provisioningHost "http://a" "") (sampleInfo "A") World.fresh
      (constReconciler_keepsLifecycle _)).2.2.1 (by decide) (by decide)⟩

/-! ## Missing handler -/

/-- Where the result of a state handler comes from: it is Complete, or the
result of an action of the reconciler invoked on the host of the tick. -/
theorem handler_result_origin (x : Externals) (t : Tick) (s : ProvisioningState)
    (h : stateHandler) (hh : handlers s = some h) :
    (h x t).1 = actionComplete ∨
    ∃ action, (h x t).1 = (t.hsm.Reconciler.actionFor action t.hsm.Host t.info).result := by
  cases s <;> simp only [handlers, Option.some.injEq, reduceCtorEq] at hh <;> subst hh <;>
    simp only [handleNone, handleUnmanaged, handleRegistering, handleInspecting,
      handleMatchProfile, handleExternallyProvisioned, handleReady, handleProvisioning,
      handleProvisioned, handleDeprovisioning, handleDeleting, runAction] <;>
    (repeat' split) <;>
    first
      | exact Or.inl rfl
      | exact Or.inr ⟨ProvisionerAction.Unmanaged, rfl⟩
      | exact Or.inr ⟨ProvisionerAction.Inspect, rfl⟩
      | exact Or.inr ⟨ProvisionerAction.MatchProfile, rfl⟩
      | exact Or.inr ⟨ProvisionerAction.ManageReady, rfl⟩
      | exact Or.inr ⟨ProvisionerAction.ManageSteadyState, rfl⟩
      | exact Or.inr ⟨ProvisionerAction.Provision, rfl⟩
      | exact Or.inr ⟨ProvisionerAction.Deprovision, rfl⟩
      | exact Or.inr ⟨ProvisionerAction.Delete, rfl⟩

/-- Where the result of a tick's body comes from when the state has a handler,
on every path: Complete (delete short-circuit or handler), the Failed of the
credential-failure fast path, or the result of an action of the reconciler.
The missing-handler error is not among them. -/
theorem reconcileBody_result_origin (x : Externals) (t : Tick) (s : ProvisioningState)
    (h : stateHandler) (hh : handlers s = some h) :
    (reconcileBody x s t).1 = actionComplete ∨
    (reconcileBody x s t).1 = actionFailed ErrorType.RegistrationError ∨
    ∃ action host, (reconcileBody x s t).1 =
      (t.hsm.Reconciler.actionFor action host t.info).result := by
  obtain ⟨-, -, hcase⟩ := checkInitiateDelete_spec t.hsm
  rcases hcase with ⟨hf, hsame, -⟩ | ⟨hfire, -, -⟩
  · have hcheck : checkInitiateDelete t.hsm = (false, t.hsm) := Prod.ext hf hsame
    by_cases hskip : registrationSkipped t
    · rw [reconcileBody_dispatch x t s hcheck hskip, hh]
      rcases handler_result_origin x t s h hh with hc | ⟨action, ha⟩
      · exact Or.inl hc
      · exact Or.inr (Or.inr ⟨action, t.hsm.Host, ha⟩)
    · have hz : ptrIsZero t.hsm.Host.DeletionTimestamp = true := by
        cases hp : ptrIsZero t.hsm.Host.DeletionTimestamp
        · exact absurd (Or.inr (Or.inl hp)) hskip
        · rfl
      by_cases hretry : t.hsm.Host.Status.ErrorType = ErrorType.RegistrationError ∧
          t.hsm.Host.Status.TriedCredentials.Match t.info.bmcCredsSecret = true
      · have hfast := ensureRegistered_fast x t hskip hretry.1 hretry.2
        rw [reconcileBody_registration x t s _ hz (by rw [hfast])]
        exact Or.inr (Or.inl rfl)
      · obtain ⟨hres, -⟩ := ensureRegistered_register x t hskip hretry
        rw [reconcileBody_registration x t s _ hz hres]
        exact Or.inr (Or.inr ⟨ProvisionerAction.Register, _, rfl⟩)
  · unfold reconcileBody
    simp only [hfire, if_true]
    exact Or.inl trivial

/-- C18: a host whose state has no handler, with no deletion requested and good
credentials matching the secret, gets the result Error with the message
`No handler found for state "<state>"`; no provisioner action is invoked and
the state is unchanged.  The states without a handler are exactly those outside
the enumerated set.  For a state of the enumerated set a handler is found and
the error is never returned, on any path (delete short-circuit, registration,
handler; whatever the deletion timestamp and the credentials): the result of
the tick is Complete, the Failed of the credential-failure fast path, or the
result of an action of the reconciler, so the tick returns an Error only when
an action returned that very Error; on the handler path the tick returns what
the handler returns. -/
theorem missing_handler (x : Externals) (reconciler : BareMetalHostReconciler)
    (host : BareMetalHost) (info : reconcileInfo) (world : World) (name : String)
    (hstate : host.Status.Provisioning.State = StateOther name)
    (hdel : ptrIsZero host.DeletionTimestamp = true)
    (hgood : host.Status.GoodCredentials.Match info.bmcCredsSecret = true) :
    (reconcile x reconciler host info world).1 =
      actionError ("No handler found for state \"" ++ name ++ "\"") ∧
    (reconcile x reconciler host info world).2.world.calls = world.calls ∧
    stateAfter (reconcile x reconciler host info world) = StateOther name ∧
    (reconcile x reconciler host info world).2.hsm.Host = host ∧
    (∀ s, enumerated s = true ↔ (handlers s).isSome = true) ∧
    (∀ (host' : BareMetalHost) (h : stateHandler),
      handlers host'.Status.Provisioning.State = some h →
      ptrIsZero host'.DeletionTimestamp = true →
      host'.Status.GoodCredentials.Match info.bmcCredsSecret = true →
      (reconcile x reconciler host' info world).1 =
        (h x (freshTick host' reconciler info world)).1) ∧
    (∀ (host' : BareMetalHost) (info' : reconcileInfo) (world' : World),
      enumerated host'.Status.Provisioning.State = true →
      (reconcile x reconciler host' info' world').1 = actionComplete ∨
      (reconcile x reconciler host' info' world').1 =
        actionFailed ErrorType.RegistrationError ∨
      ∃ action acted, (reconcile x reconciler host' info' world').1 =
        (reconciler.actionFor action acted info').result) ∧
    (∀ (msg : String),
      (∀ action acted info', (reconciler.actionFor action acted info').result ≠
        actionError msg) →
      ∀ (host' : BareMetalHost) (info' : reconcileInfo) (world' : World),
        enumerated host'.Status.Provisioning.State = true →
        (reconcile x reconciler host' info' world').1 ≠ actionError msg) := by
  have hskip := registrationSkipped_of_good host reconciler info world hgood
  have hcheck := checkInitiateDelete_declines (freshTick host reconciler info world).hsm hdel
  have hbody := reconcileBody_dispatch x (freshTick host reconciler info world)
    host.Status.Provisioning.State hcheck hskip
  have hnone : handlers host.Status.Provisioning.State = none := by rw [hstate]; rfl
  rw [hnone] at hbody
  simp only at hbody
  have hall : ∀ (host' : BareMetalHost) (info' : reconcileInfo) (world' : World),
      enumerated host'.Status.Provisioning.State = true →
      (reconcile x reconciler host' info' world').1 = actionComplete ∨
      (reconcile x reconciler host' info' world').1 =
        actionFailed ErrorType.RegistrationError ∨
      ∃ action acted, (reconcile x reconciler host' info' world').1 =
        (reconciler.actionFor action acted info').result := by
    intro host' info' world' henum
    obtain ⟨h, hh⟩ : ∃ h, handlers host'.Status.Provisioning.State = some h := by
      cases hs : host'.Status.Provisioning.State <;>
        simp [hs, enumerated, handlers] at henum ⊢
    rw [reconcile_fresh]
    exact reconcileBody_result_origin x (freshTick host' reconciler info' world')
      host'.Status.Provisioning.State h hh
  refine ⟨?_, ?_, ?_, ?_, ?_, ?_, hall, ?_⟩
  · rw [reconcile_fresh, hbody, hstate]
    rfl
  · rw [calls_fresh, hbody]
    rfl
  · rw [stateAfter_fresh, hbody]
    simp [hstate]
  · rw [reconcile_fresh, hbody]
    simp only
    rw [updateHostStateFrom_same x host.Status.Provisioning.State
      (freshTick host reconciler info world) rfl]
    rfl
  · intro s
    cases s <;> simp [enumerated, handlers]
  · intro host' h hh hdel' hgood'
    have hskip' := registrationSkipped_of_good host' reconciler info world hgood'
    rw [reconcile_fresh,
      reconcileBody_handler x reconciler host' info world h hh (Or.inl hdel') hskip']
  · intro msg hnever host' info' world' henum herr
    rcases hall host' info' world' henum with hc | hf | ⟨action, acted, ha⟩
    · rw [herr] at hc; cases hc
    · rw [herr] at hf; cases hf
    · rw [herr] at ha
      exact hnever action acted info' ha.symm

/-- Witness for C18: a host in the unknown state `broken` gets the error, and a
host in Deleting whose deletion has been requested does not. -/
theorem missing_handler_witness :
    (reconcile sampleExternals (constReconciler actionComplete)
      (registeredHost (StateOther "broken")) (sampleInfo "A") World.fresh).1 =
      actionError ("No handler found for state \"" ++ "broken" ++ "\"") ∧
    (reconcile sampleExternals (constReconciler actionComplete)
      (deletedHost StateDeleting) (sampleInfo "B") World.fresh).1 ≠
      actionError "No handler found for state \"deleting\"" :=
  ⟨(missing_handler sampleExternals (constReconciler actionComplete)
      (registeredHost (StateOther "broken")) (sampleInfo "A") World.fresh "broken"
      rfl (by decide) (by decide)).1,
    (missing_handler sampleExternals (constReconciler actionComplete)
      (registeredHost (StateOther "broken")) (sampleInfo "A") World.fresh "broken"
      rfl (by decide) (by decide)).2.2.2.2.2.2.2
      "No handler found for state \"deleting\""
      (by intro action acted info' h; cases action <;> cases h)
      (deletedHost StateDeleting) (sampleInfo "B") World.fresh (by decide)⟩

/-! ## The transition recorder, as a whole -/

/-- The recorder queues exactly one state-change increment on a change. -/
theorem recorderCallbacks_stateChange (s : ProvisioningState) (t : Tick)
    (hne : t.hsm.NextState ≠ s) :
    (recorderCallbacks s t).countP Callback.isStateChange = 1 ∧
    Callback.stateChange s t.hsm.NextState ∈ recorderCallbacks s t := by
  unfold recorderCallbacks
  rw [if_pos hne]
  split
  · split <;> simp [List.countP_cons, Callback.isStateChange]
  · simp [List.countP_cons, Callback.isStateChange]

/-- C19: the transition recorder.  On every return path of a tick the state of
the host afterwards is the `NextState` of the machine.  When `NextState` is the
initial state the recorder changes nothing.  When they differ it writes
`NextState` into the state and queues exactly one state-change increment; it
writes the boot mode only when `NextState` is Inspecting or Provisioning, and
the boot mode is then the one computed for the host. -/
theorem transition_recorder (x : Externals) (reconciler : BareMetalHostReconciler)
    (host : BareMetalHost) (info : reconcileInfo) (world : World)
    (hk : reconciler.KeepsLifecycle) :
    stateAfter (reconcile x reconciler host info world) =
      (reconcile x reconciler host info world).2.hsm.NextState ∧
    (∀ (s : ProvisioningState) (t : Tick), t.hsm.NextState = s →
      updateHostStateFrom x s t = t) ∧
    (∀ (s : ProvisioningState) (t : Tick), t.hsm.NextState ≠ s →
      (updateHostStateFrom x s t).hsm.Host.Status.Provisioning.State = t.hsm.NextState ∧
      (∃ l, (updateHostStateFrom x s t).info.postSaveCallbacks =
          t.info.postSaveCallbacks ++ l ∧
        l.countP Callback.isStateChange = 1 ∧
        Callback.stateChange s t.hsm.NextState ∈ l) ∧
      (t.hsm.NextState = StateInspecting ∨ t.hsm.NextState = StateProvisioning →
        (updateHostStateFrom x s t).hsm.Host.Status.Provisioning.BootMode =
          x.BootMode (transitionWritten x s t) ∧
        ((∀ h h' : BareMetalHost, h.Spec = h'.Spec → x.BootMode h = x.BootMode h') →
          (updateHostStateFrom x s t).hsm.Host.Status.Provisioning.BootMode =
            x.BootMode (updateHostStateFrom x s t).hsm.Host)) ∧
      (¬ (t.hsm.NextState = StateInspecting ∨ t.hsm.NextState = StateProvisioning) →
        (updateHostStateFrom x s t).hsm.Host.Status.Provisioning.BootMode =
          t.hsm.Host.Status.Provisioning.BootMode)) := by
  refine ⟨?_, fun s t h => updateHostStateFrom_same x s t h, fun s t hne => ?_⟩
  · rw [reconcile_stateAfter x reconciler host info world hk, reconcile_eq]
    exact (updateHostStateFrom_frame _ _ _).1.symm
  · have hw := transitionWritten_frame x s t
    have hfr := updateHostStateFrom_frame x s t
    refine ⟨?_, ⟨recorderCallbacks s t, updateHostStateFrom_callbacks x s t,
      recorderCallbacks_stateChange s t hne⟩, fun hboot => ?_, fun hnot => ?_⟩
    · rw [updateHostStateFrom_state, if_pos hne]
    · have hb : (updateHostStateFrom x s t).hsm.Host.Status.Provisioning.BootMode =
          x.BootMode (transitionWritten x s t) := by
        rw [updateHostStateFrom_changed x s t hne]
        simp only
        rw [if_pos hboot]
        rfl
      refine ⟨hb, fun hspec => ?_⟩
      rw [hb]
      apply hspec
      rw [hw.2.1, hfr.2.2.2.1]
    · rw [updateHostStateFrom_changed x s t hne]
      simp only
      rw [if_neg hnot]
      exact hw.2.2.2.2.2.2.2.1

/-- Witness for C19: a Registering host that has registered moves to
Inspecting, and the recorder has written that state. -/
theorem transition_recorder_witness :
    (constReconciler actionContinue).KeepsLifecycle ∧
    stateAfter (reconcile sampleExternals (constReconciler actionContinue)
      (registeredHost StateRegistering) (sampleInfo "A") World.fresh) =
      (reconcile sampleExternals (constReconciler actionContinue)
        (registeredHost StateRegistering) (sampleInfo "A") World.fresh).2.hsm.NextState :=
  ⟨constReconciler_keepsLifecycle _,
    (transition_recorder sampleExternals (constReconciler actionContinue)
      (registeredHost StateRegistering) (sampleInfo "A") World.fresh
      (constReconciler_keepsLifecycle _)).1⟩

/-- The recorder evaluated on the move Registering → Inspecting: the state is
written, the boot mode becomes the computed UEFI, and the one callback queued
is the state-change increment. -/
theorem recorder_sample_registering_to_inspecting :
    (reconcile sampleExternals (constReconciler actionContinue)
      (registeredHost StateRegistering) (sampleInfo "A") World.fresh).2.hsm.Host.Status.Provisioning
      = { State := StateInspecting, ID := "", Image := { URL := "" },
          BootMode := BootMode.UEFI } ∧
    (reconcile sampleExternals (constReconciler actionContinue)
      (registeredHost StateRegistering) (sampleInfo "A") World.fresh).2.info.postSaveCallbacks
      = [Callback.stateChange StateRegistering StateInspecting] :=
  ⟨by decide, by decide⟩

/-! ## What the fast path writes -/

/-- C20: on the credential-failure fast path the host after the tick is the
host before it with, at most, the Registering interval reopened: the interval
is replaced by a fresh one started now when it was not open (start zero or end
non-zero) and the host is unchanged when it was open or absent.  The state,
boot mode, error type, good and tried credentials, operational status, spec,
deletion timestamp and the intervals of the other states are unchanged, and no
event or post-save callback is added. -/
theorem fast_path_frame (x : Externals) (reconciler : BareMetalHostReconciler)
    (host : BareMetalHost) (info : reconcileInfo) (world : World)
    (hdel : ptrIsZero host.DeletionTimestamp = true)
    (hnone : host.Status.Provisioning.State ≠ StateNone)
    (hunm : host.Status.Provisioning.State ≠ StateUnmanaged)
    (hgood : host.Status.GoodCredentials.Match info.bmcCredsSecret = false)
    (herr : host.Status.ErrorType = ErrorType.RegistrationError)
    (htried : host.Status.TriedCredentials.Match info.bmcCredsSecret = true) :
    (reconcile x reconciler host info world).2.hsm.Host =
      recordStateBegin host StateRegistering (x.Now world.clockReads) ∧
    (reconcile x reconciler host info world).2.info = info ∧
    (∀ m, OperationMetricForState host StateRegistering = some m →
      (m.Start = 0 ∨ m.End ≠ 0 →
        OperationMetricForState (reconcile x reconciler host info world).2.hsm.Host
          StateRegistering = some { Start := x.Now world.clockReads, End := 0 }) ∧
      (m.Start ≠ 0 → m.End = 0 →
        (reconcile x reconciler host info world).2.hsm.Host = host)) ∧
    (OperationMetricForState host StateRegistering = none →
      (reconcile x reconciler host info world).2.hsm.Host = host) ∧
    (∀ s, s ≠ StateRegistering →
      OperationMetricForState (reconcile x reconciler host info world).2.hsm.Host s =
        OperationMetricForState host s) ∧
    (reconcile x reconciler host info world).2.hsm.Host.DeletionTimestamp =
      host.DeletionTimestamp ∧
    (reconcile x reconciler host info world).2.hsm.Host.Spec = host.Spec ∧
    (reconcile x reconciler host info world).2.hsm.Host.Status.Provisioning =
      host.Status.Provisioning ∧
    (reconcile x reconciler host info world).2.hsm.Host.Status.ErrorType =
      host.Status.ErrorType ∧
    (reconcile x reconciler host info world).2.hsm.Host.Status.OperationalStatus =
      host.Status.OperationalStatus ∧
    (reconcile x reconciler host info world).2.hsm.Host.Status.GoodCredentials =
      host.Status.GoodCredentials ∧
    (reconcile x reconciler host info world).2.hsm.Host.Status.TriedCredentials =
      host.Status.TriedCredentials := by
  have hskip : ¬ registrationSkipped (freshTick host reconciler info world) := by
    unfold registrationSkipped
    simp only [freshTick_host, freshTick_next, freshTick_info, hdel, hgood, hnone, hunm]
    simp
  have hf := ensureRegistered_fast x (freshTick host reconciler info world) hskip herr htried
  have hbody := reconcileBody_registration x (freshTick host reconciler info world)
    host.Status.Provisioning.State (actionFailed ErrorType.RegistrationError) hdel
    (by rw [hf])
  have hhost : (reconcile x reconciler host info world).2.hsm.Host =
      recordStateBegin host StateRegistering (x.Now world.clockReads) := by
    rw [reconcile_fresh, hbody, hf]
    simp only
    rw [updateHostStateFrom_same]
    · rfl
    · rfl
  have hinfo : (reconcile x reconciler host info world).2.info = info := by
    rw [reconcile_fresh, hbody, hf]
    simp only
    rw [updateHostStateFrom_same]
    · rfl
    · rfl
  have hb := recordStateBegin_frame host StateRegistering (x.Now world.clockReads)
  rw [hhost]
  refine ⟨rfl, hinfo, fun m hm => ⟨fun hclosed => ?_, fun hs he => ?_⟩, fun hm => ?_,
    fun s hs => recordStateBegin_other host StateRegistering s _ hs,
    hb.1, hb.2.1, hb.2.2.1, hb.2.2.2.1, hb.2.2.2.2.1, hb.2.2.2.2.2.1, hb.2.2.2.2.2.2⟩
  · rw [recordStateBegin_fresh host _ _ m hm hclosed]
    exact metric_set_same host _ _ m hm
  · exact recordStateBegin_open host _ _ m hm hs he
  · exact recordStateBegin_none host _ _ hm

/-- Witness for C20: State = Inspecting, tried fingerprint A, current
fingerprint A; the Registering interval, never started, is opened at time 7. -/
theorem fast_path_frame_witness :
    (reconcile sampleExternals (constReconciler actionComplete)
      (failedRegistrationHost StateInspecting "A") (sampleInfo "A")
      World.fresh).2.hsm.Host =
      recordStateBegin (failedRegistrationHost StateInspecting "A") StateRegistering
        (sampleExternals.Now World.fresh.clockReads) ∧
    (reconcile sampleExternals (constReconciler actionComplete)
      (failedRegistrationHost StateInspecting "A") (sampleInfo "A")
      World.fresh).2.info = sampleInfo "A" :=
  ⟨(fast_path_frame sampleExternals (constReconciler actionComplete)
      (failedRegistrationHost StateInspecting "A") (sampleInfo "A") World.fresh
      (by decide) (by decide) (by decide) (by decide) (by decide) (by decide)).1,
    (fast_path_frame sampleExternals (constReconciler actionComplete)
      (failedRegistrationHost StateInspecting "A") (sampleInfo "A") World.fresh
      (by decide) (by decide) (by decide) (by decide) (by decide) (by decide)).2.1⟩

end Metal3
